import Mathlib

/-!
Verification of the reconciliation and classification engine of
CompareBLASTs (src/main.py) against its specification.

The engine compares two snapshots of ranked BLAST hit lists, resolves
unmatched records against an external record directory, links declared
replacements, classifies remaining new records by recency, and tallies
categories.  The collaborators living in blast_hit.py (the hit matcher,
the pairwise comparator and the batched directory lookup) are not part
of src/; they are modelled from the spec at their interface boundary and
are marked as such.  Everything else below is a shallow embedding of the
code in src/main.py.
-/

deriving instance DecidableEq for Except

/-- One (database, number) identifier pair carried by a hit
(BlastHit ids entries, accessed as ID.db and ID.num in main.py). -/
structure Ident where
  db : String
  num : Nat
deriving DecidableEq

/-- One alignment record (BlastHit).  `hid` models the Python object
identity of the record (two distinct record objects have distinct
`hid`); `name` is the query name; `ids` the identifier pairs; `attrs`
the opaque alignment-attribute payload compared by the hit comparator. -/
structure Hit where
  hid : Nat
  name : String
  ids : List Ident
  attrs : Nat
deriving DecidableEq

/-- Modelled from the spec: the directory status of a record as returned
by the external lookup service, a closed three-value set (the strings
used as bucket keys in main.py line 83: live, replaced, suppressed). -/
inductive DirStatus where
  | live
  | replaced
  | suppressed
deriving DecidableEq

/-- The string form of a directory status, as stored into a hit's
mutable `status` field by main.py line 91. -/
def DirStatus.str : DirStatus → String
  | .live => "live"
  | .replaced => "replaced"
  | .suppressed => "suppressed"

/-- Modelled from the spec: the record returned by the external
directory lookup for one identifier (Status, ReplacedBy, CreateDate).
Creation dates are modelled as naturals ordered like the parsed
time values of strptime in main.py lines 130 and 139. -/
structure DirRecord where
  status : DirStatus
  replacedBy : Nat
  createDate : Nat
deriving DecidableEq

/-- The chronological list of status-field assignments performed on the
records during one run: pairs of (record identity, status string). -/
abbrev Writes := List (Nat × String)

/-- The final value of a record's mutable status field after a list of
chronological writes: the last write to that record wins, `none` when
the field was never assigned. -/
def statusOf (w : Writes) (k : Nat) : Option String :=
  w.foldl (fun acc p => if p.1 = k then some p.2 else acc) none

/-- All values ever written to one record's status field, in order. -/
def valuesAt (w : Writes) (k : Nat) : List String :=
  (w.filter (fun p => decide (p.1 = k))).map (fun p => p.2)

/-- The first identifier of a hit under the canonical directory
namespace: main.py lines 88-92 scan `hit.ids` and take the first entry
with db equal to gi. -/
def firstGi : List Ident → Option Nat
  | [] => none
  | i :: is => if i.db = "gi" then some i.num else firstGi is

/-- The canonical (gi) identifier number of a hit, when present. -/
def giNum (h : Hit) : Option Nat := firstGi h.ids

/-- Lookup in the resolved identifier mapping (a Python dict keyed by
identifier number). -/
def idlookup (n : Nat) : List (Nat × DirRecord) → Option DirRecord
  | [] => none
  | p :: ps => if p.1 = n then some p.2 else idlookup n ps

/-- First-occurrence deduplication with a seen accumulator, matching
Python dict insertion semantics (a key keeps its first insertion
position). -/
def dedupFirstAux (seen : List Nat) : List Nat → List Nat
  | [] => []
  | n :: ns =>
    if n ∈ seen then dedupFirstAux seen ns
    else n :: dedupFirstAux (seen ++ [n]) ns

/-- First-occurrence deduplication of a key list. -/
def dedupFirst (l : List Nat) : List Nat := dedupFirstAux [] l

/-- Modelled from the spec: blast_hit.get_idlist (blast_hit.py is not
under src/).  Extracts, for each record, the identifier under the
canonical gi namespace (records lacking one are skipped), deduplicates
the identifiers, and performs one batched directory lookup, returning
the mapping from identifier number to directory record.  The external
directory service is the function argument `dir`. -/
def get_idlist (hits : List Hit) (dir : Nat → DirRecord) : List (Nat × DirRecord) :=
  (dedupFirst (hits.filterMap giNum)).map (fun n => (n, dir n))

/-- Modelled from the spec: BlastHit.compare_hit with check_ids False
(blast_hit.py is not under src/) — the identity-agnostic mode of the
hit comparator, which judges equivalence on the alignment attributes
only, ignoring identifiers. -/
def compare_hit (a b : Hit) : Bool := a.attrs == b.attrs

/-- One side's hit partition as produced by blast_hit.compare_blasts
(the hit matcher): the full input in order, the unmatched records, and
the matched buckets. -/
structure Partition where
  all : List Hit
  unknown : List Hit
  same : List Hit
  similar : List Hit
deriving DecidableEq

/-- The three-way grouping of old unmatched hits by directory status
(the oldOnly dict of main.py line 83). -/
structure OldOnly where
  live : List Hit
  replaced : List Hit
  suppressed : List Hit
deriving DecidableEq

/-- Append a hit to the bucket selected by its directory status
(main.py line 90). -/
def OldOnly.add (oo : OldOnly) : DirStatus → Hit → OldOnly
  | .live, h => { oo with live := oo.live ++ [h] }
  | .replaced, h => { oo with replaced := oo.replaced ++ [h] }
  | .suppressed, h => { oo with suppressed := oo.suppressed ++ [h] }

/-- The classification loop over old unmatched hits (main.py lines
87-92): each hit with a gi identifier is looked up in the resolved
mapping, appended to the status bucket, and has its status field set to
the directory status string; a hit with no gi identifier is skipped
silently; a gi identifier absent from the mapping raises a KeyError. -/
def classifyOld (m : List (Nat × DirRecord)) :
    List Hit → OldOnly → Writes → Except String (OldOnly × Writes)
  | [], oo, w => .ok (oo, w)
  | h :: hs, oo, w =>
    match giNum h with
    | none => classifyOld m hs oo w
    | some n =>
      match idlookup n m with
      | none => .error "KeyError: Status"
      | some r => classifyOld m hs (oo.add r.status h) (w ++ [(h.hid, r.status.str)])

/-- The declared replacement identifier of an old hit (main.py lines
102-104): every id with db gi is looked up, the last lookup wins; a
failed lookup raises KeyError; a hit with no gi id leaves the variable
unassigned (NameError). -/
def replacedByAux (m : List (Nat × DirRecord)) (acc : Except String Nat) :
    List Ident → Except String Nat
  | [] => acc
  | i :: is =>
    if i.db = "gi" then
      match idlookup i.num m with
      | some r => replacedByAux m (.ok r.replacedBy) is
      | none => .error "KeyError: ReplacedBy"
    else replacedByAux m acc is

/-- The declared replacement identifier of a hit (main.py lines 102-104). -/
def replacedByOf (m : List (Nat × DirRecord)) (h : Hit) : Except String Nat :=
  replacedByAux m (.error "NameError: new_id") h.ids

/-- The scan of the new side's unknown bucket for a confirmed
replacement candidate (main.py lines 106-116): the first record whose
identifier numbers contain the declared replacement identifier and
whose attributes are judged equivalent by the identity-agnostic
comparator is removed, returning it and the remaining bucket. -/
def findConfirm (nid : Nat) (hit : Hit) : List Hit → Option (Hit × List Hit)
  | [] => none
  | h2 :: hs =>
    if (h2.ids.any (fun i => i.num == nid)) && compare_hit hit h2 then some (h2, hs)
    else (findConfirm nid hit hs).map (fun p => (p.1, h2 :: p.2))

/-- The mutable state of the replacement-linking loop: the new side's
unknown bucket, the two replacement buckets, the old side's lost
bucket, and the chronological status writes. -/
structure LinkState where
  newUnknown : List Hit
  newRepl : List Hit
  oldRepl : List Hit
  lost : List Hit
  writes : Writes
deriving DecidableEq

/-- One iteration of the replacement-linking loop (main.py lines
101-121) for one old hit of the replaced group: compute the declared
replacement identifier, scan the new unknown bucket for a confirmed
candidate; on success pop the candidate into the new replacement bucket
(status write replacement) and append the old hit to the old
replacement bucket; on failure append the old hit to the lost bucket
and overwrite its status with live. -/
def linkStep (m : List (Nat × DirRecord)) (ls : LinkState) (hit : Hit) :
    Except String LinkState :=
  match replacedByOf m hit with
  | .error e => .error e
  | .ok nid =>
    match findConfirm nid hit ls.newUnknown with
    | some (rep, rest) =>
      .ok ⟨rest, ls.newRepl ++ [rep], ls.oldRepl ++ [hit], ls.lost,
           ls.writes ++ [(rep.hid, "replacement")]⟩
    | none =>
      .ok ⟨ls.newUnknown, ls.newRepl, ls.oldRepl, ls.lost ++ [hit],
           ls.writes ++ [(hit.hid, "live")]⟩

/-- The whole replacement-linking loop over the replaced group. -/
def linkAll (m : List (Nat × DirRecord)) : List Hit → LinkState → Except String LinkState
  | [], ls => .ok ls
  | h :: hs, ls =>
    match linkStep m ls h with
    | .ok ls2 => linkAll m hs ls2
    | .error e => .error e

/-- The creation date of a new-side hit (main.py line 139): the first
identifier (regardless of database) is looked up in the new side's
resolved mapping; an empty id list raises IndexError, a missing key
raises KeyError. -/
def newDate (m : List (Nat × DirRecord)) (h : Hit) : Except String Nat :=
  match h.ids with
  | [] => .error "IndexError: ids empty"
  | i :: _ =>
    match idlookup i.num m with
    | some r => .ok r.createDate
    | none => .error "KeyError: CreateDate"

/-- The creation date of a new-side hit as an optional value (the
successful case of newDate). -/
def newDateO (m : List (Nat × DirRecord)) (h : Hit) : Option Nat :=
  match h.ids with
  | [] => none
  | i :: _ => (idlookup i.num m).map (fun r => r.createDate)

/-- The recency test of main.py line 139-140: true when the hit's
resolved creation date is strictly earlier than the baseline date. -/
def recPred (m : List (Nat × DirRecord)) (b : Nat) (h : Hit) : Bool :=
  match newDateO m h with
  | some d => decide (d < b)
  | none => false

/-- The accumulating state of the recency loop: the new and old (alias
strange) buckets on the new side, and the status writes. -/
structure RecencyState where
  newL : List Hit
  oldL : List Hit
  writes : Writes
deriving DecidableEq

/-- The recency-classification loop over the remaining new unknown hits
(main.py lines 136-145): a hit created strictly before the baseline
goes to the old bucket with status strange, otherwise to the new bucket
with status new. -/
def recencyAll (m : List (Nat × DirRecord)) (b : Nat) :
    List Hit → RecencyState → Except String RecencyState
  | [], st => .ok st
  | h :: hs, st =>
    match newDate m h with
    | .error e => .error e
    | .ok d =>
      if d < b then
        recencyAll m b hs ⟨st.newL, st.oldL ++ [h], st.writes ++ [(h.hid, "strange")]⟩
      else
        recencyAll m b hs ⟨st.newL ++ [h], st.oldL, st.writes ++ [(h.hid, "new")]⟩

/-- The baseline date of main.py lines 130-131: the maximum creation
date over the old side's resolved directory records; the maximum of an
empty collection raises ValueError. -/
def baselineOf (m : List (Nat × DirRecord)) : Except String Nat :=
  match m.map (fun p => p.2.createDate) with
  | [] => .error "ValueError: max() arg is an empty sequence"
  | d :: ds => .ok (ds.foldl Nat.max d)

/-- The full outcome of CompareBLASTs.compare: the terminal buckets of
both sides, the remaining new unknown bucket, the two resolved
mappings, the baseline date and the chronological status writes. -/
structure CompareResult where
  old_same : List Hit
  old_similar : List Hit
  old_lost : List Hit
  old_replacement : List Hit
  old_suppressed : List Hit
  new_same : List Hit
  new_similar : List Hit
  new_replacement : List Hit
  new_new : List Hit
  new_old : List Hit
  new_unknown : List Hit
  oldGeneIDs : List (Nat × DirRecord)
  newGeneIDs : List (Nat × DirRecord)
  baseline : Nat
  writes : Writes
deriving DecidableEq

/-- CompareBLASTs.compare (main.py lines 66-145), starting from the
partitions produced by the hit matcher: resolve the whole old side
(line 78), classify the old unmatched hits by directory status (lines
87-92), link declared replacements against the new unknown bucket
(lines 101-121), resolve the remaining new unknown hits (line 125),
compute the baseline date (line 130), and classify the remaining new
hits by recency (lines 136-145). -/
def CompareBLASTs.compare (oldP newP : Partition) (dir : Nat → DirRecord) :
    Except String CompareResult :=
  let oldGeneIDs := get_idlist oldP.all dir
  match classifyOld oldGeneIDs oldP.unknown ⟨[], [], []⟩ [] with
  | .error e => .error e
  | .ok (oo, w1) =>
    match linkAll oldGeneIDs oo.replaced ⟨newP.unknown, [], [], oo.live, w1⟩ with
    | .error e => .error e
    | .ok ls =>
      let newGeneIDs := get_idlist ls.newUnknown dir
      match baselineOf oldGeneIDs with
      | .error e => .error e
      | .ok b =>
        match recencyAll newGeneIDs b ls.newUnknown ⟨[], [], ls.writes⟩ with
        | .error e => .error e
        | .ok rs =>
          .ok ⟨oldP.same, oldP.similar, ls.lost, ls.oldRepl, oo.suppressed,
               newP.same, newP.similar, ls.newRepl, rs.newL, rs.oldL,
               ls.newUnknown, oldGeneIDs, newGeneIDs, b, rs.writes⟩

/-- The per-category counters of output_comparison (main.py line 164). -/
structure Tally where
  equal : Nat
  similar : Nat
  live : Nat
  replaced : Nat
  suppressed : Nat
  new : Nat
  strange : Nat
deriving DecidableEq

/-- The zero-initialized category counters of main.py lines 164-166. -/
def Tally.initial : Tally := ⟨0, 0, 0, 0, 0, 0, 0⟩

/-- Increment the counter keyed by a status string; a string outside
the closed key set is a KeyError (returned as none). -/
def Tally.bump (t : Tally) (s : String) : Option Tally :=
  if s = "equal" then some { t with equal := t.equal + 1 }
  else if s = "similar" then some { t with similar := t.similar + 1 }
  else if s = "live" then some { t with live := t.live + 1 }
  else if s = "replaced" then some { t with replaced := t.replaced + 1 }
  else if s = "suppressed" then some { t with suppressed := t.suppressed + 1 }
  else if s = "new" then some { t with new := t.new + 1 }
  else if s = "strange" then some { t with strange := t.strange + 1 }
  else none

/-- The old-side counting loop of main.py lines 175-176: every hit of
the considered prefix contributes the counter of its status; an unset
status or a status outside the key set raises KeyError. -/
def tallyOld (stf : Nat → Option String) : List Hit → Tally → Except String Tally
  | [], t => .ok t
  | h :: hs, t =>
    match stf h.hid with
    | none => .error "KeyError: status"
    | some s =>
      match t.bump s with
      | some t2 => tallyOld stf hs t2
      | none => .error "KeyError: status"

/-- The new-side counting loop of main.py lines 177-179: a hit of the
considered prefix contributes only when its status is new or strange. -/
def tallyNew (stf : Nat → Option String) : List Hit → Tally → Tally
  | [], t => t
  | h :: hs, t =>
    match stf h.hid with
    | some s =>
      if s = "new" then tallyNew stf hs { t with new := t.new + 1 }
      else if s = "strange" then tallyNew stf hs { t with strange := t.strange + 1 }
      else tallyNew stf hs t
    | none => tallyNew stf hs t

/-- The prefix size considered by output_comparison (main.py lines
168-173): the whole bucket when top is zero, otherwise the first
min(top, length) hits. -/
def topCount (top len : Nat) : Nat := if top = 0 then len else min top len

/-- The category tallying of CompareBLASTs.output_comparison (main.py
lines 162-179), abstracted over the status field contents `stf`. -/
def output_tally (oldAll newAll : List Hit) (stf : Nat → Option String)
    (top : Nat) : Except String Tally :=
  match tallyOld stf (oldAll.take (topCount top oldAll.length)) Tally.initial with
  | .error e => .error e
  | .ok t => .ok (tallyNew stf (newAll.take (topCount top newAll.length)) t)

/-- Modelled from the spec: the status writes performed by the hit
matcher (blast_hit.py, not under src/) on matched records: exact
matches become equal, approximate matches become similar, on both
sides. -/
def matchWrites (oldP newP : Partition) : Writes :=
  oldP.same.map (fun h => (h.hid, "equal")) ++
    oldP.similar.map (fun h => (h.hid, "similar")) ++
    newP.same.map (fun h => (h.hid, "equal")) ++
    newP.similar.map (fun h => (h.hid, "similar"))

/-- The query names of a hit list in first-appearance order (the key
insertion order of the per-query dicts of main.py lines 297-307). -/
def groupNames (hits : List Hit) : List String :=
  hits.foldl (fun acc h => if h.name ∈ acc then acc else acc ++ [h.name]) []

/-- The hits belonging to one query name, in input order. -/
def hitsFor (nm : String) (hits : List Hit) : List Hit :=
  hits.filter (fun h => decide (h.name = nm))

/-- The per-query loop of perform_comparison (main.py lines 323-328):
match both sides of one query, run the comparison, and tally. -/
def runQueries (oldAllHits newAllHits : List Hit)
    (matcher : List Hit → List Hit → Partition × Partition)
    (dir : Nat → DirRecord) (top : Nat) :
    List String → Except String (List (String × Tally))
  | [] => .ok []
  | k :: ks =>
    let pr := matcher (hitsFor k newAllHits) (hitsFor k oldAllHits)
    match CompareBLASTs.compare pr.2 pr.1 dir with
    | .error e => .error e
    | .ok res =>
      match output_tally pr.2.all pr.1.all
          (statusOf (matchWrites pr.2 pr.1 ++ res.writes)) top with
      | .error e => .error e
      | .ok t =>
        match runQueries oldAllHits newAllHits matcher dir top ks with
        | .ok rest => .ok ((k, t) :: rest)
        | .error e => .error e

/-- perform_comparison (main.py lines 281-333): group both input files
by query name, assert that the two query-name sets coincide (line 310),
then compare and tally every query.  The hit matcher
(blast_hit.compare_blasts, not under src/) is passed as a capability. -/
def perform_comparison (oldAllHits newAllHits : List Hit)
    (matcher : List Hit → List Hit → Partition × Partition)
    (dir : Nat → DirRecord) (top : Nat) :
    Except String (List (String × Tally)) :=
  if (groupNames oldAllHits).toFinset = (groupNames newAllHits).toFinset then
    runQueries oldAllHits newAllHits matcher dir top (groupNames oldAllHits)
  else
    .error "AssertionError: query name sets differ"

/-- The single status write produced for one old unmatched hit by the
classification loop, when any. -/
def classWrite (m : List (Nat × DirRecord)) (h : Hit) : Option (Nat × String) :=
  match giNum h with
  | none => none
  | some n =>
    match idlookup n m with
    | none => none
    | some r => some (h.hid, r.status.str)

/-- The directory status resolved for a hit through its first gi
identifier, when any. -/
def dirStat (m : List (Nat × DirRecord)) (h : Hit) : Option DirStatus :=
  match giNum h with
  | none => none
  | some n => (idlookup n m).map (fun r => r.status)

/-- Membership test for one directory status, as a Bool predicate. -/
def hasStat (m : List (Nat × DirRecord)) (s : DirStatus) (h : Hit) : Bool :=
  decide (dirStat m h = some s)

/-- The number of hits of a list whose status field holds one given
string. -/
def countStat (l : List Hit) (stf : Nat → Option String) (s : String) : Nat :=
  (l.filter (fun h => decide (stf h.hid = some s))).length

/-- The status-assignment discipline the engine actually follows: every
record's status field is written at most twice, and a double write can
only be the overwrite of replaced by live performed when replacement
linking fails (main.py line 91 then line 121). -/
def onceExceptReplacedLive (w : Writes) : Prop :=
  ∀ k, (valuesAt w k).length ≤ 2 ∧
    ((valuesAt w k).length = 2 → valuesAt w k = ["replaced", "live"])

-- ===== fixtures =====

/-- A directory stub used by concrete runs: identifier n is live with
creation date 5 + n. -/
def cdir : Nat → DirRecord := fun n => ⟨DirStatus.live, 0, 5 + n⟩

/-- A matcher stub that declares every record unmatched. -/
def cmatcher : List Hit → List Hit → Partition × Partition :=
  fun nh oh => (⟨nh, nh, [], []⟩, ⟨oh, oh, [], []⟩)

/-- A matched old record carrying gi 1. -/
def fixA : Hit := ⟨0, "q", [⟨"gi", 1⟩], 10⟩

/-- An unmatched old record with no gi identifier. -/
def fixNoGi : Hit := ⟨1, "q", [⟨"ref", 7⟩], 3⟩

/-- The new-side counterpart of fixA. -/
def fixA2 : Hit := ⟨2, "q", [⟨"gi", 1⟩], 10⟩

/-- Old partition of the C5 counterexample: one matched record, none
unmatched. -/
def c5old : Partition := ⟨[fixA], [], [fixA], []⟩

/-- New partition of the C5 counterexample: empty. -/
def c5new : Partition := ⟨[], [], [], []⟩

/-- Resolved mapping of the linking-step witnesses: gi 2 was replaced
by 99. -/
def wm2 : List (Nat × DirRecord) := [(2, ⟨DirStatus.replaced, 99, 3⟩)]

/-- The old replaced-group hit of the linking-step witnesses. -/
def whitB : Hit := ⟨1, "q", [⟨"gi", 2⟩], 7⟩

/-- A candidate carrying the replacement id 99 with different
attributes. -/
def wcandE : Hit := ⟨5, "q", [⟨"gi", 99⟩], 8⟩

/-- A candidate carrying the replacement id 99 with equal attributes. -/
def wcandF : Hit := ⟨6, "q", [⟨"gi", 99⟩], 7⟩

/-- Link state of the C2 witness: only the non-equivalent candidate. -/
def wls2 : LinkState := ⟨[wcandE], [], [], [], []⟩

/-- Link state of the C3 witness: a failing candidate followed by a
confirmed one. -/
def wls3 : LinkState := ⟨[wcandE, wcandF], [], [], [], []⟩

/-- Old partition of the C10 witness: a single record with no gi. -/
def c10old : Partition := ⟨[fixNoGi], [fixNoGi], [], []⟩

/-- New partition of the C10 witness: empty. -/
def c10new : Partition := ⟨[], [], [], []⟩

/-- Old input of the C9 witness: one query named q1. -/
def c9oldHits : List Hit := [⟨0, "q1", [⟨"gi", 1⟩], 10⟩]

/-- New input of the C9 witness: one query named q2. -/
def c9newHits : List Hit := [⟨2, "q2", [⟨"gi", 1⟩], 10⟩]

/-- Old record of the C4 witness run (matched, gi 1). -/
def c4A : Hit := ⟨0, "q", [⟨"gi", 1⟩], 10⟩

/-- New unmatched record of the C4 witness created after the baseline. -/
def c4D : Hit := ⟨3, "q", [⟨"gi", 3⟩], 4⟩

/-- New unmatched record of the C4 witness created before the baseline. -/
def c4E : Hit := ⟨4, "q", [⟨"gi", 4⟩], 6⟩

/-- Directory of the C4 witness: gi 1 dates 5, gi 3 dates 9, gi 4
dates 2. -/
def c4dir : Nat → DirRecord := fun n =>
  if n = 1 then ⟨DirStatus.live, 0, 5⟩
  else if n = 3 then ⟨DirStatus.live, 0, 9⟩
  else ⟨DirStatus.live, 0, 2⟩

/-- Old partition of the C4 witness. -/
def c4old : Partition := ⟨[c4A], [], [c4A], []⟩

/-- New partition of the C4 witness. -/
def c4new : Partition := ⟨[c4D, c4E], [c4D, c4E], [], []⟩

/-- The result of the C4 witness run. -/
def c4res : CompareResult :=
  ⟨[c4A], [], [], [], [], [], [], [], [c4D], [c4E], [c4D, c4E],
   [(1, ⟨DirStatus.live, 0, 5⟩)],
   [(3, ⟨DirStatus.live, 0, 9⟩), (4, ⟨DirStatus.live, 0, 2⟩)], 5,
   [(3, "new"), (4, "strange")]⟩

/-- Old partition of the C1 counterexample and C7 witness: a matched
record plus an unmatched record lacking a gi identifier. -/
def c1old : Partition := ⟨[fixA, fixNoGi], [fixNoGi], [fixA], []⟩

/-- New partition of the C1 counterexample and C7 witness: empty. -/
def c1new : Partition := ⟨[], [], [], []⟩

/-- The result of the run on c1old and c1new under cdir. -/
def c1res : CompareResult :=
  ⟨[fixA], [], [], [], [], [], [], [], [], [], [],
   [(1, ⟨DirStatus.live, 0, 6⟩)], [], 6, []⟩

/-- Directory of the C1 witness run: gi 1 live dated 5, gi 2 replaced
by 99 dated 4, everything else live dated 9. -/
def w1dir : Nat → DirRecord := fun n =>
  if n = 1 then ⟨DirStatus.live, 0, 5⟩
  else if n = 2 then ⟨DirStatus.replaced, 99, 4⟩
  else ⟨DirStatus.live, 0, 9⟩

/-- Old partition of the C1 witness: one matched record and one
unmatched record whose directory entry is replaced. -/
def w1old : Partition := ⟨[fixA, whitB], [whitB], [fixA], []⟩

/-- New partition of the C1 witness: one matched record and one
unmatched record that does not carry the declared replacement. -/
def w1new : Partition := ⟨[fixA2, c4D], [c4D], [fixA2], []⟩

/-- The result of the C1 witness run. -/
def w1res : CompareResult :=
  ⟨[fixA], [], [whitB], [], [], [fixA2], [], [], [c4D], [], [c4D],
   [(1, ⟨DirStatus.live, 0, 5⟩), (2, ⟨DirStatus.replaced, 99, 4⟩)],
   [(3, ⟨DirStatus.live, 0, 9⟩)], 5,
   [(1, "replaced"), (1, "live"), (3, "new")]⟩

/-- A new-side unmatched record lacking a gi identifier (first id under
the ref namespace). -/
def fixNoGi2 : Hit := ⟨5, "q", [⟨"ref", 7⟩], 3⟩

/-- Old partition of the C7 counterexample: one matched record. -/
def c7old : Partition := ⟨[fixA], [], [fixA], []⟩

/-- New partition of the C7 counterexample: one unmatched record with
no gi identifier. -/
def c7new : Partition := ⟨[fixNoGi2], [fixNoGi2], [], []⟩

/-- A hit fixture with no identifiers, used by tally runs where only
the status field matters. -/
def c6hit (n : Nat) : Hit := ⟨n, "q", [], 0⟩

/-- Old all bucket of the C6 witness. -/
def c6oldAll : List Hit := [c6hit 0, c6hit 1, c6hit 2]

/-- New all bucket of the C6 witness. -/
def c6newAll : List Hit := [c6hit 3, c6hit 4]

/-- Status contents of the C6 witness. -/
def c6stf : Nat → Option String :=
  statusOf [(0, "equal"), (1, "live"), (2, "new"), (3, "new"), (4, "strange")]

/-- Directory of the C8 run: gi 2 replaced by 99, everything else live
dated 5. -/
def c8dir : Nat → DirRecord := fun n =>
  if n = 2 then ⟨DirStatus.replaced, 99, 3⟩ else ⟨DirStatus.live, 0, 5⟩

/-- Old partition of the C8 run: one matched record and one unmatched
record whose directory entry is replaced with no candidate available. -/
def c8old : Partition := ⟨[fixA, whitB], [whitB], [fixA], []⟩

/-- New partition of the C8 run: empty, so linking must fail. -/
def c8new : Partition := ⟨[], [], [], []⟩

/-- The result of the C8 run: the replaced record's status is written
twice, first replaced then live. -/
def c8res : CompareResult :=
  ⟨[fixA], [], [whitB], [], [], [], [], [], [], [], [],
   [(1, ⟨DirStatus.live, 0, 5⟩), (2, ⟨DirStatus.replaced, 99, 3⟩)], [], 5,
   [(1, "replaced"), (1, "live")]⟩

-- ===== theorems =====

/-- Closed form of the old-side classification loop: each status bucket
receives, in order, the unmatched hits resolving to that status, and
one status write is produced per resolvable hit. -/
theorem classifyOld_ok (m : List (Nat × DirRecord)) (hs : List Hit) :
    ∀ (oo : OldOnly) (w : Writes) (oo2 : OldOnly) (w2 : Writes),
    classifyOld m hs oo w = .ok (oo2, w2) →
    oo2.live = oo.live ++ hs.filter (hasStat m .live) ∧
    oo2.replaced = oo.replaced ++ hs.filter (hasStat m .replaced) ∧
    oo2.suppressed = oo.suppressed ++ hs.filter (hasStat m .suppressed) ∧
    w2 = w ++ hs.filterMap (classWrite m) := by
  induction hs with
  | nil =>
    intro oo w oo2 w2 h
    simp only [classifyOld, Except.ok.injEq, Prod.mk.injEq] at h
    simp [← h.1, ← h.2]
  | cons h hs ih =>
    intro oo w oo2 w2 hok
    simp only [classifyOld] at hok
    cases hgi : giNum h with
    | none =>
      simp only [hgi] at hok
      obtain ⟨e1, e2, e3, e4⟩ := ih _ _ _ _ hok
      simp [e1, e2, e3, e4, hasStat, dirStat, hgi, classWrite]
    | some n =>
      simp only [hgi] at hok
      cases hlk : idlookup n m with
      | none => simp only [hlk] at hok; exact absurd hok (by simp)
      | some r =>
        simp only [hlk] at hok
        obtain ⟨e1, e2, e3, e4⟩ := ih _ _ _ _ hok
        cases hst : r.status <;>
          simp [hst, e1, e2, e3, e4, OldOnly.add, hasStat, dirStat, hgi, hlk,
                DirStatus.str, List.filterMap_cons, List.filter_cons, classWrite]

/-- The classification loop leaves its state untouched when no hit
carries a gi identifier (the silent skip of main.py lines 88-92). -/
theorem classifyOld_skip (m : List (Nat × DirRecord)) (hs : List Hit) :
    ∀ (oo : OldOnly) (w : Writes), (∀ h ∈ hs, giNum h = none) →
    classifyOld m hs oo w = .ok (oo, w) := by
  induction hs with
  | nil => intro oo w _; simp [classifyOld]
  | cons h hs ih =>
    intro oo w hall
    have hh : giNum h = none := hall h (by simp)
    simp only [classifyOld, hh]
    exact ih oo w (fun x hx => hall x (by simp [hx]))

/-- A successful replacement scan returns a member of the bucket that
satisfies the carries-and-equivalent test, and the bucket is a
permutation of the popped candidate consed onto the remainder. -/
theorem findConfirm_some (nid : Nat) (hit : Hit) (l : List Hit) :
    ∀ (rep : Hit) (rest : List Hit), findConfirm nid hit l = some (rep, rest) →
    rep ∈ l ∧ ((rep.ids.any (fun i => i.num == nid)) && compare_hit hit rep) = true ∧
      l.Perm (rep :: rest) := by
  induction l with
  | nil => intro rep rest h; simp [findConfirm] at h
  | cons h2 hs ih =>
    intro rep rest h
    by_cases hc : ((h2.ids.any (fun i => i.num == nid)) && compare_hit hit h2) = true
    · simp only [findConfirm, if_pos hc, Option.some.injEq, Prod.mk.injEq] at h
      obtain ⟨h1, h3⟩ := h
      subst h1; subst h3
      exact ⟨by simp, hc, List.Perm.refl _⟩
    · simp only [findConfirm, if_neg hc] at h
      cases hr : findConfirm nid hit hs with
      | none => rw [hr] at h; simp at h
      | some p =>
        rw [hr] at h
        simp only [Option.map_some', Option.some.injEq, Prod.mk.injEq] at h
        obtain ⟨h1, h3⟩ := h
        obtain ⟨m1, m2, m3⟩ := ih p.1 p.2 (by simp [hr])
        subst h1; subst h3
        refine ⟨by simp [m1], m2, ?_⟩
        exact (m3.cons h2).trans (List.Perm.swap _ _ _)

/-- The replacement scan fails exactly when no bucket member passes the
carries-and-equivalent test. -/
theorem findConfirm_none (nid : Nat) (hit : Hit) (l : List Hit)
    (hall : ∀ h2 ∈ l, ((h2.ids.any (fun i => i.num == nid)) && compare_hit hit h2) = false) :
    findConfirm nid hit l = none := by
  induction l with
  | nil => simp [findConfirm]
  | cons h2 hs ih =>
    have h1 : ((h2.ids.any (fun i => i.num == nid)) && compare_hit hit h2) = false :=
      hall h2 (by simp)
    simp [findConfirm, h1, ih (fun x hx => hall x (by simp [hx]))]

/-- The replacement scan succeeds when some bucket member passes the
carries-and-equivalent test. -/
theorem findConfirm_isSome (nid : Nat) (hit : Hit) (l : List Hit)
    (hex : ∃ h2 ∈ l, ((h2.ids.any (fun i => i.num == nid)) && compare_hit hit h2) = true) :
    (findConfirm nid hit l).isSome := by
  induction l with
  | nil => simp at hex
  | cons h2 hs ih =>
    by_cases hc : ((h2.ids.any (fun i => i.num == nid)) && compare_hit hit h2) = true
    · simp [findConfirm, hc]
    · simp only [findConfirm, if_neg hc]
      obtain ⟨x, hx, hpx⟩ := hex
      rcases List.mem_cons.mp hx with rfl | hx2
      · exact absurd hpx hc
      · have := ih ⟨x, hx2, hpx⟩
        cases hr : findConfirm nid hit hs with
        | none => rw [hr] at this; simp at this
        | some p => simp [hr]

/-- The Except-valued and Option-valued creation-date computations
agree. -/
theorem newDate_ok_iff (m : List (Nat × DirRecord)) (h : Hit) (d : Nat) :
    newDate m h = .ok d ↔ newDateO m h = some d := by
  cases hi : h.ids with
  | nil => simp [newDate, newDateO, hi]
  | cons i is =>
    cases hlk : idlookup i.num m with
    | none => simp [newDate, newDateO, hi, hlk]
    | some r => simp [newDate, newDateO, hi, hlk]

/-- Closed form of the recency loop: the new and strange buckets are
the two filter halves of the remaining unknown bucket, one status write
is produced per hit, and every hit processed has a resolvable date. -/
theorem recencyAll_ok (m : List (Nat × DirRecord)) (b : Nat) (hs : List Hit) :
    ∀ (st st2 : RecencyState), recencyAll m b hs st = .ok st2 →
    st2.newL = st.newL ++ hs.filter (fun h => !recPred m b h) ∧
    st2.oldL = st.oldL ++ hs.filter (recPred m b) ∧
    st2.writes = st.writes ++
      hs.map (fun h => (h.hid, if recPred m b h then "strange" else "new")) ∧
    ∀ h ∈ hs, (newDateO m h).isSome := by
  induction hs with
  | nil =>
    intro st st2 h
    simp only [recencyAll, Except.ok.injEq] at h
    simp [← h]
  | cons h hs ih =>
    intro st st2 hok
    simp only [recencyAll] at hok
    cases hd : newDate m h with
    | error e => simp only [hd] at hok; exact absurd hok (by simp)
    | ok d =>
      simp only [hd] at hok
      have hdo : newDateO m h = some d := (newDate_ok_iff m h d).mp hd
      have hrp : recPred m b h = decide (d < b) := by simp [recPred, hdo]
      by_cases hlt : d < b
      · rw [if_pos hlt] at hok
        obtain ⟨e1, e2, e3, e4⟩ := ih _ _ hok
        refine ⟨?_, ?_, ?_, ?_⟩
        · simp [e1, List.filter_cons, hrp, hlt]
        · simp [e2, List.filter_cons, hrp, hlt]
        · simp [e3, List.map_cons, hrp, hlt]
        · intro x hx
          rcases List.mem_cons.mp hx with rfl | hx2
          · simp [hdo]
          · exact e4 x hx2
      · rw [if_neg hlt] at hok
        obtain ⟨e1, e2, e3, e4⟩ := ih _ _ hok
        refine ⟨?_, ?_, ?_, ?_⟩
        · simp [e1, List.filter_cons, hrp, hlt]
        · simp [e2, List.filter_cons, hrp, hlt]
        · simp [e3, List.map_cons, hrp, hlt]
        · intro x hx
          rcases List.mem_cons.mp hx with rfl | hx2
          · simp [hdo]
          · exact e4 x hx2

/-- A left fold of Nat.max over a list computes an upper bound that is
attained. -/
theorem foldl_max_spec (ds : List Nat) : ∀ (d : Nat),
    (ds.foldl Nat.max d = d ∨ ds.foldl Nat.max d ∈ ds) ∧
    d ≤ ds.foldl Nat.max d ∧ ∀ x ∈ ds, x ≤ ds.foldl Nat.max d := by
  induction ds with
  | nil => intro d; simp
  | cons a ds ih =>
    intro d
    obtain ⟨h1, h2, h3⟩ := ih (Nat.max d a)
    refine ⟨?_, ?_, ?_⟩
    · rcases h1 with h | h
      · rw [List.foldl_cons, h]
        rcases Nat.le_total d a with hda | had
        · have hmax : Nat.max d a = a := Nat.max_eq_right hda
          rw [hmax]; exact Or.inr (by simp)
        · have hmax : Nat.max d a = d := Nat.max_eq_left had
          rw [hmax]; exact Or.inl rfl
      · exact Or.inr (by simp [h])
    · exact le_trans (Nat.le_max_left d a) h2
    · intro x hx
      rcases List.mem_cons.mp hx with rfl | hx2
      · exact le_trans (Nat.le_max_right d x) h2
      · exact h3 x hx2

/-- The baseline date of a successful run is the maximum creation date
among the resolved directory records. -/
theorem baselineOf_ok (m : List (Nat × DirRecord)) (b : Nat)
    (h : baselineOf m = .ok b) :
    b ∈ m.map (fun p => p.2.createDate) ∧
    ∀ d ∈ m.map (fun p => p.2.createDate), d ≤ b := by
  cases hm : m.map (fun p => p.2.createDate) with
  | nil => rw [baselineOf, hm] at h; exact absurd h (by simp)
  | cons d ds =>
    rw [baselineOf, hm] at h
    simp only [Except.ok.injEq] at h
    obtain ⟨h1, h2, h3⟩ := foldl_max_spec ds d
    subst h
    constructor
    · rcases h1 with h | h
      · simp [h]
      · simp [h]
    · intro x hx
      rcases List.mem_cons.mp hx with rfl | hx2
      · exact h2
      · exact h3 x hx2

/-- The baseline computation fails exactly on an empty resolved
mapping. -/
theorem baselineOf_error (m : List (Nat × DirRecord)) (hm : m = []) :
    baselineOf m = .error "ValueError: max() arg is an empty sequence" := by
  subst hm; rfl

/-- dedupFirst is empty only for the empty list. -/
theorem dedupFirst_eq_nil_iff (l : List Nat) : dedupFirst l = [] ↔ l = [] := by
  cases l <;> simp [dedupFirst, dedupFirstAux]

/-- The resolved mapping is empty exactly when no record carries a gi
identifier. -/
theorem get_idlist_eq_nil_iff (hits : List Hit) (dir : Nat → DirRecord) :
    get_idlist hits dir = [] ↔ ∀ h ∈ hits, giNum h = none := by
  rw [get_idlist, List.map_eq_nil_iff, dedupFirst_eq_nil_iff,
      List.filterMap_eq_nil_iff]

/-- Appending one write extends the value trace of its own key and
leaves every other key's trace unchanged. -/
theorem valuesAt_append (w : Writes) (k2 k : Nat) (v : String) :
    valuesAt (w ++ [(k, v)]) k2 = valuesAt w k2 ++ if k2 = k then [v] else [] := by
  by_cases hc : k2 = k
  · subst hc; simp [valuesAt, List.filter_append]
  · simp [valuesAt, List.filter_append, hc, Ne.symm hc]

/-- A key never written has an empty value trace. -/
theorem valuesAt_nil (w : Writes) (k : Nat) (h : ∀ p ∈ w, p.1 ≠ k) :
    valuesAt w k = [] := by
  simp only [valuesAt, List.map_eq_nil_iff, List.filter_eq_nil_iff]
  intro p hp
  simp [h p hp]

/-- A key never written resolves to an unset status field. -/
theorem statusOf_nil (w : Writes) (k : Nat) (h : ∀ p ∈ w, p.1 ≠ k) :
    statusOf w k = none := by
  have aux : ∀ (w2 : Writes) (acc : Option String), (∀ p ∈ w2, p.1 ≠ k) →
      w2.foldl (fun acc p => if p.1 = k then some p.2 else acc) acc = acc := by
    intro w2
    induction w2 with
    | nil => intro acc _; rfl
    | cons p w2 ih =>
      intro acc hall
      have : p.1 ≠ k := hall p (by simp)
      simp only [List.foldl_cons, if_neg this]
      exact ih acc (fun q hq => hall q (by simp [hq]))
  exact aux w none h

/-- A write stored in the trace appears among its key's values. -/
theorem mem_valuesAt (w : Writes) (k : Nat) (v : String) (h : (k, v) ∈ w) :
    v ∈ valuesAt w k := by
  simp only [valuesAt, List.mem_map]
  exact ⟨(k, v), List.mem_filter.mpr ⟨h, by simp⟩, rfl⟩

/-- A classification write carries the hid of the hit it came from. -/
theorem classWrite_fst (m : List (Nat × DirRecord)) (h : Hit)
    (p : Nat × String) (hp : classWrite m h = some p) : p.1 = h.hid := by
  unfold classWrite at hp
  cases hgi : giNum h with
  | none => simp only [hgi] at hp; exact absurd hp (by simp)
  | some n =>
    simp only [hgi] at hp
    cases hlk : idlookup n m with
    | none => simp only [hlk] at hp; exact absurd hp (by simp)
    | some r =>
      simp only [hlk, Option.some.injEq] at hp
      simp [← hp]

/-- The classification write keys form a sublist of the processed hids. -/
theorem classWrites_keys_sublist (m : List (Nat × DirRecord)) (hs : List Hit) :
    ((hs.filterMap (classWrite m)).map Prod.fst).Sublist (hs.map Hit.hid) := by
  induction hs with
  | nil => simp
  | cons h hs ih =>
    cases hc : classWrite m h with
    | none =>
      simp only [List.filterMap_cons, hc, List.map_cons]
      exact ih.cons _
    | some p =>
      simp only [List.filterMap_cons, hc, List.map_cons]
      rw [classWrite_fst m h p hc]
      exact ih.cons₂ _

/-- A key whose writes are nowhere duplicated has at most one value. -/
theorem valuesAt_length_le_one (w : Writes) (k : Nat)
    (hnd : (w.map Prod.fst).Nodup) : (valuesAt w k).length ≤ 1 := by
  induction w with
  | nil => simp [valuesAt]
  | cons p w ih =>
    rw [List.map_cons, List.nodup_cons] at hnd
    by_cases hc : p.1 = k
    · have hz : valuesAt w k = [] := by
        apply valuesAt_nil
        intro q hq hqk
        apply hnd.1
        rw [hc, ← hqk]
        exact List.mem_map_of_mem _ hq
      have hstep : valuesAt (p :: w) k = p.2 :: valuesAt w k := by
        simp [valuesAt, List.filter_cons, hc]
      rw [hstep, hz]
      simp
    · have hstep : valuesAt (p :: w) k = valuesAt w k := by
        simp [valuesAt, List.filter_cons, hc]
      rw [hstep]
      exact ih hnd.2

/-- A list of length at most one containing an element is that
singleton. -/
theorem eq_singleton_of_mem (l : List String) (v : String)
    (h1 : v ∈ l) (h2 : l.length ≤ 1) : l = [v] := by
  cases l with
  | nil => simp at h1
  | cons a t =>
    cases t with
    | nil => simp at h1; simp [h1]
    | cons b t2 => simp at h2

/-- Case analysis of one replacement-linking iteration: either a
candidate is confirmed and popped, or the old hit is reclassified
live. -/
theorem linkStep_ok_cases (m : List (Nat × DirRecord)) (ls : LinkState)
    (hit : Hit) (ls1 : LinkState) (h : linkStep m ls hit = .ok ls1) :
    (∃ nid rep rest, replacedByOf m hit = .ok nid ∧
       findConfirm nid hit ls.newUnknown = some (rep, rest) ∧
       ls1 = ⟨rest, ls.newRepl ++ [rep], ls.oldRepl ++ [hit], ls.lost,
              ls.writes ++ [(rep.hid, "replacement")]⟩) ∨
    (∃ nid, replacedByOf m hit = .ok nid ∧
       findConfirm nid hit ls.newUnknown = none ∧
       ls1 = ⟨ls.newUnknown, ls.newRepl, ls.oldRepl, ls.lost ++ [hit],
              ls.writes ++ [(hit.hid, "live")]⟩) := by
  unfold linkStep at h
  cases hrb : replacedByOf m hit with
  | error e => simp only [hrb] at h; exact absurd h (by simp)
  | ok nid =>
    simp only [hrb] at h
    cases hfc : findConfirm nid hit ls.newUnknown with
    | none =>
      simp only [hfc, Except.ok.injEq] at h
      exact Or.inr ⟨nid, rfl, hfc, h.symm⟩
    | some p =>
      obtain ⟨rep, rest⟩ := p
      simp only [hfc, Except.ok.injEq] at h
      exact Or.inl ⟨nid, rep, rest, rfl, hfc, h.symm⟩

/-- Conservation through the linking loop: the new side's unknown and
replacement buckets together form the same multiset before and after,
and the lost plus old-replacement buckets absorb exactly the pending
replaced group. -/
theorem linkAll_ok_conserve (m : List (Nat × DirRecord)) (pending : List Hit) :
    ∀ (ls ls2 : LinkState), linkAll m pending ls = .ok ls2 →
    ((ls2.newUnknown : Multiset Hit) + (ls2.newRepl : Multiset Hit) =
      (ls.newUnknown : Multiset Hit) + (ls.newRepl : Multiset Hit)) ∧
    ((ls2.lost : Multiset Hit) + (ls2.oldRepl : Multiset Hit) =
      (ls.lost : Multiset Hit) + (ls.oldRepl : Multiset Hit) + (pending : Multiset Hit)) := by
  induction pending with
  | nil =>
    intro ls ls2 h
    simp only [linkAll, Except.ok.injEq] at h
    subst h
    simp
  | cons hit hs ih =>
    intro ls ls2 hok
    simp only [linkAll] at hok
    cases hstep : linkStep m ls hit with
    | error e => simp only [hstep] at hok; exact absurd hok (by simp)
    | ok ls1 =>
      simp only [hstep] at hok
      obtain ⟨c1, c2⟩ := ih _ _ hok
      rcases linkStep_ok_cases m ls hit ls1 hstep with
        ⟨nid, rep, rest, _, hfc, rfl⟩ | ⟨nid, _, hfc, rfl⟩
      · have hperm := (findConfirm_some nid hit ls.newUnknown rep rest hfc).2.2
        have hms : (ls.newUnknown : Multiset Hit) = {rep} + (rest : Multiset Hit) := by
          rw [Multiset.coe_eq_coe.mpr hperm, ← Multiset.cons_coe,
              ← Multiset.singleton_add]
        dsimp only at c1 c2
        constructor
        · rw [c1, hms, ← Multiset.coe_add, Multiset.coe_singleton]
          simp only [add_comm, add_left_comm, add_assoc]
        · rw [c2, ← Multiset.coe_add, Multiset.coe_singleton, ← Multiset.cons_coe,
              ← Multiset.singleton_add]
          simp only [add_comm, add_left_comm, add_assoc]
      · dsimp only at c1 c2
        constructor
        · exact c1
        · rw [c2, ← Multiset.coe_add, Multiset.coe_singleton, ← Multiset.cons_coe,
              ← Multiset.singleton_add]
          simp only [add_comm, add_left_comm, add_assoc]

/-- Every write appended by the linking loop is either a live write
keyed by a pending replaced-group hit or a replacement write keyed by a
hit of the new side's unknown bucket. -/
theorem linkAll_ok_writes (m : List (Nat × DirRecord)) (pending : List Hit) :
    ∀ (ls ls2 : LinkState), linkAll m pending ls = .ok ls2 →
    ∃ dw, ls2.writes = ls.writes ++ dw ∧
      ∀ p ∈ dw, (p.2 = "live" ∧ p.1 ∈ pending.map Hit.hid) ∨
        (p.2 = "replacement" ∧ p.1 ∈ ls.newUnknown.map Hit.hid) := by
  induction pending with
  | nil =>
    intro ls ls2 h
    simp only [linkAll, Except.ok.injEq] at h
    subst h
    exact ⟨[], by simp, by simp⟩
  | cons hit hs ih =>
    intro ls ls2 hok
    simp only [linkAll] at hok
    cases hstep : linkStep m ls hit with
    | error e => simp only [hstep] at hok; exact absurd hok (by simp)
    | ok ls1 =>
      simp only [hstep] at hok
      obtain ⟨dw, hdw, hprop⟩ := ih _ _ hok
      rcases linkStep_ok_cases m ls hit ls1 hstep with
        ⟨nid, rep, rest, _, hfc, rfl⟩ | ⟨nid, _, hfc, rfl⟩
      · dsimp only at hdw hprop
        obtain ⟨hmem, _, hperm⟩ := findConfirm_some nid hit ls.newUnknown rep rest hfc
        refine ⟨(rep.hid, "replacement") :: dw, by simp [hdw], ?_⟩
        intro p hp
        rcases List.mem_cons.mp hp with rfl | hp2
        · exact Or.inr ⟨rfl, List.mem_map_of_mem _ hmem⟩
        · rcases hprop p hp2 with ⟨hv, hk⟩ | ⟨hv, hk⟩
          · exact Or.inl ⟨hv, by simp only [List.map_cons, List.mem_cons]; exact Or.inr hk⟩
          · refine Or.inr ⟨hv, ?_⟩
            obtain ⟨x, hx, hxe⟩ := List.mem_map.mp hk
            exact List.mem_map.mpr ⟨x, hperm.symm.subset (by simp [hx]), hxe⟩
      · dsimp only at hdw hprop
        refine ⟨(hit.hid, "live") :: dw, by simp [hdw], ?_⟩
        intro p hp
        rcases List.mem_cons.mp hp with rfl | hp2
        · exact Or.inl ⟨rfl, by simp⟩
        · rcases hprop p hp2 with ⟨hv, hk⟩ | ⟨hv, hk⟩
          · exact Or.inl ⟨hv, by simp only [List.map_cons, List.mem_cons]; exact Or.inr hk⟩
          · exact Or.inr ⟨hv, hk⟩

/-- Bucket membership through the linking loop: final lost and
old-replacement members come from the initial lost bucket or the
pending group, and remaining unknown members come from the initial
unknown bucket. -/
theorem linkAll_ok_mem (m : List (Nat × DirRecord)) (pending : List Hit)
    (ls ls2 : LinkState) (h : linkAll m pending ls = .ok ls2) :
    (∀ x ∈ ls2.lost, x ∈ ls.lost ∨ x ∈ ls.oldRepl ∨ x ∈ pending) ∧
    (∀ x ∈ ls2.oldRepl, x ∈ ls.lost ∨ x ∈ ls.oldRepl ∨ x ∈ pending) ∧
    (∀ x ∈ ls2.newUnknown, x ∈ ls.newUnknown ∨ x ∈ ls.newRepl) := by
  obtain ⟨c1, c2⟩ := linkAll_ok_conserve m pending ls ls2 h
  refine ⟨?_, ?_, ?_⟩
  · intro x hx
    have : x ∈ (ls.lost : Multiset Hit) + (ls.oldRepl : Multiset Hit) + (pending : Multiset Hit) := by
      rw [← c2]
      exact Multiset.mem_add.mpr (Or.inl (by simpa using hx))
    rcases Multiset.mem_add.mp this with hy | hy
    · rcases Multiset.mem_add.mp hy with hz | hz
      · exact Or.inl (by simpa using hz)
      · exact Or.inr (Or.inl (by simpa using hz))
    · exact Or.inr (Or.inr (by simpa using hy))
  · intro x hx
    have : x ∈ (ls.lost : Multiset Hit) + (ls.oldRepl : Multiset Hit) + (pending : Multiset Hit) := by
      rw [← c2]
      exact Multiset.mem_add.mpr (Or.inr (by simpa using hx))
    rcases Multiset.mem_add.mp this with hy | hy
    · rcases Multiset.mem_add.mp hy with hz | hz
      · exact Or.inl (by simpa using hz)
      · exact Or.inr (Or.inl (by simpa using hz))
    · exact Or.inr (Or.inr (by simpa using hy))
  · intro x hx
    have : x ∈ (ls.newUnknown : Multiset Hit) + (ls.newRepl : Multiset Hit) := by
      rw [← c1]
      exact Multiset.mem_add.mpr (Or.inl (by simpa using hx))
    rcases Multiset.mem_add.mp this with hy | hy
    · exact Or.inl (by simpa using hy)
    · exact Or.inr (by simpa using hy)

/-- Destructuring of a successful compare run into its four phases and
the equations tying the result fields to the phase outputs. -/
theorem compare_ok_elim {oldP newP : Partition} {dir : Nat → DirRecord}
    {st : CompareResult} (hok : CompareBLASTs.compare oldP newP dir = .ok st) :
    ∃ oo w1 ls rs b,
      classifyOld (get_idlist oldP.all dir) oldP.unknown ⟨[], [], []⟩ [] = .ok (oo, w1) ∧
      linkAll (get_idlist oldP.all dir) oo.replaced
        ⟨newP.unknown, [], [], oo.live, w1⟩ = .ok ls ∧
      baselineOf (get_idlist oldP.all dir) = .ok b ∧
      recencyAll (get_idlist ls.newUnknown dir) b ls.newUnknown
        ⟨[], [], ls.writes⟩ = .ok rs ∧
      st = ⟨oldP.same, oldP.similar, ls.lost, ls.oldRepl, oo.suppressed,
            newP.same, newP.similar, ls.newRepl, rs.newL, rs.oldL,
            ls.newUnknown, get_idlist oldP.all dir, get_idlist ls.newUnknown dir,
            b, rs.writes⟩ := by
  unfold CompareBLASTs.compare at hok
  cases hc : classifyOld (get_idlist oldP.all dir) oldP.unknown ⟨[], [], []⟩ [] with
  | error e => simp only [hc] at hok; exact absurd hok (by simp)
  | ok p =>
    obtain ⟨oo, w1⟩ := p
    simp only [hc] at hok
    cases hl : linkAll (get_idlist oldP.all dir) oo.replaced
        ⟨newP.unknown, [], [], oo.live, w1⟩ with
    | error e => simp only [hl] at hok; exact absurd hok (by simp)
    | ok ls =>
      simp only [hl] at hok
      cases hb : baselineOf (get_idlist oldP.all dir) with
      | error e => simp only [hb] at hok; exact absurd hok (by simp)
      | ok b =>
        simp only [hb] at hok
        cases hr : recencyAll (get_idlist ls.newUnknown dir) b ls.newUnknown
            ⟨[], [], ls.writes⟩ with
        | error e => simp only [hr] at hok; exact absurd hok (by simp)
        | ok rs =>
          simp only [hr, Except.ok.injEq] at hok
          exact ⟨oo, w1, ls, rs, b, rfl, hl, rfl, hr, hok.symm⟩

/-- Closed form of the old-side tally loop: every counter grows by the
number of prefix hits carrying its status string. -/
theorem tallyOld_ok (stf : Nat → Option String) (l : List Hit) :
    ∀ (t t2 : Tally), tallyOld stf l t = .ok t2 →
    t2.equal = t.equal + countStat l stf "equal" ∧
    t2.similar = t.similar + countStat l stf "similar" ∧
    t2.live = t.live + countStat l stf "live" ∧
    t2.replaced = t.replaced + countStat l stf "replaced" ∧
    t2.suppressed = t.suppressed + countStat l stf "suppressed" ∧
    t2.new = t.new + countStat l stf "new" ∧
    t2.strange = t.strange + countStat l stf "strange" := by
  induction l with
  | nil =>
    intro t t2 h
    simp only [tallyOld, Except.ok.injEq] at h
    subst h
    simp [countStat]
  | cons h hs ih =>
    intro t t2 hok
    simp only [tallyOld] at hok
    cases hst : stf h.hid with
    | none => simp only [hst] at hok; exact absurd hok (by simp)
    | some s =>
      simp only [hst] at hok
      cases hb : t.bump s with
      | none => simp only [hb] at hok; exact absurd hok (by simp)
      | some t1 =>
        simp only [hb] at hok
        obtain ⟨e1, e2, e3, e4, e5, e6, e7⟩ := ih _ _ hok
        unfold Tally.bump at hb
        split_ifs at hb with h1 h2 h3 h4 h5 h6 h7
        · simp only [Option.some.injEq] at hb
          subst hb; subst h1
          refine ⟨?_, ?_, ?_, ?_, ?_, ?_, ?_⟩ <;>
            simp [e1, e2, e3, e4, e5, e6, e7, countStat, List.filter_cons, hst] <;> omega
        · simp only [Option.some.injEq] at hb
          subst hb; subst h2
          refine ⟨?_, ?_, ?_, ?_, ?_, ?_, ?_⟩ <;>
            simp [e1, e2, e3, e4, e5, e6, e7, countStat, List.filter_cons, hst, h1] <;> omega
        · simp only [Option.some.injEq] at hb
          subst hb; subst h3
          refine ⟨?_, ?_, ?_, ?_, ?_, ?_, ?_⟩ <;>
            simp [e1, e2, e3, e4, e5, e6, e7, countStat, List.filter_cons, hst, h1, h2] <;> omega
        · simp only [Option.some.injEq] at hb
          subst hb; subst h4
          refine ⟨?_, ?_, ?_, ?_, ?_, ?_, ?_⟩ <;>
            simp [e1, e2, e3, e4, e5, e6, e7, countStat, List.filter_cons, hst, h1, h2, h3] <;>
              omega
        · simp only [Option.some.injEq] at hb
          subst hb; subst h5
          refine ⟨?_, ?_, ?_, ?_, ?_, ?_, ?_⟩ <;>
            simp [e1, e2, e3, e4, e5, e6, e7, countStat, List.filter_cons, hst, h1, h2, h3,
                  h4] <;> omega
        · simp only [Option.some.injEq] at hb
          subst hb; subst h6
          refine ⟨?_, ?_, ?_, ?_, ?_, ?_, ?_⟩ <;>
            simp [e1, e2, e3, e4, e5, e6, e7, countStat, List.filter_cons, hst, h1, h2, h3,
                  h4, h5] <;> omega
        · simp only [Option.some.injEq] at hb
          subst hb; subst h7
          refine ⟨?_, ?_, ?_, ?_, ?_, ?_, ?_⟩ <;>
            simp [e1, e2, e3, e4, e5, e6, e7, countStat, List.filter_cons, hst, h1, h2, h3,
                  h4, h5, h6] <;> omega

/-- Closed form of the new-side tally loop: only the new and strange
counters grow, by the number of prefix hits carrying those statuses. -/
theorem tallyNew_spec (stf : Nat → Option String) (l : List Hit) :
    ∀ (t : Tally),
    (tallyNew stf l t).equal = t.equal ∧
    (tallyNew stf l t).similar = t.similar ∧
    (tallyNew stf l t).live = t.live ∧
    (tallyNew stf l t).replaced = t.replaced ∧
    (tallyNew stf l t).suppressed = t.suppressed ∧
    (tallyNew stf l t).new = t.new + countStat l stf "new" ∧
    (tallyNew stf l t).strange = t.strange + countStat l stf "strange" := by
  induction l with
  | nil => intro t; simp [tallyNew, countStat]
  | cons h hs ih =>
    intro t
    simp only [tallyNew]
    cases hst : stf h.hid with
    | none =>
      obtain ⟨e1, e2, e3, e4, e5, e6, e7⟩ := ih t
      refine ⟨?_, ?_, ?_, ?_, ?_, ?_, ?_⟩ <;>
        simp [e1, e2, e3, e4, e5, e6, e7, countStat, List.filter_cons, hst]
    | some s =>
      by_cases h1 : s = "new"
      · subst h1
        simp only [if_pos rfl]
        obtain ⟨e1, e2, e3, e4, e5, e6, e7⟩ := ih { t with new := t.new + 1 }
        refine ⟨?_, ?_, ?_, ?_, ?_, ?_, ?_⟩ <;>
          simp [e1, e2, e3, e4, e5, e6, e7, countStat, List.filter_cons, hst] <;> omega
      · by_cases h2 : s = "strange"
        · subst h2
          simp only [if_neg h1, if_pos rfl]
          obtain ⟨e1, e2, e3, e4, e5, e6, e7⟩ := ih { t with strange := t.strange + 1 }
          refine ⟨?_, ?_, ?_, ?_, ?_, ?_, ?_⟩ <;>
            simp [e1, e2, e3, e4, e5, e6, e7, countStat, List.filter_cons, hst, h1] <;> omega
        · simp only [if_neg h1, if_neg h2]
          obtain ⟨e1, e2, e3, e4, e5, e6, e7⟩ := ih t
          refine ⟨?_, ?_, ?_, ?_, ?_, ?_, ?_⟩ <;>
            simp [e1, e2, e3, e4, e5, e6, e7, countStat, List.filter_cons, hst, h1, h2]

/-- A hit list on which the directory status is everywhere defined is
the multiset sum of its three status filters. -/
theorem filter_three_perm (m : List (Nat × DirRecord)) (l : List Hit)
    (hall : ∀ h ∈ l, (dirStat m h).isSome) :
    (l : Multiset Hit) = (l.filter (hasStat m .live) : Multiset Hit) +
      (l.filter (hasStat m .replaced) : Multiset Hit) +
      (l.filter (hasStat m .suppressed) : Multiset Hit) := by
  have hcons : ∀ (x : Hit) (xs : List Hit),
      (↑(x :: xs) : Multiset Hit) = {x} + (↑xs : Multiset Hit) := by
    intro x xs
    rw [← Multiset.cons_coe, ← Multiset.singleton_add]
  induction l with
  | nil => simp
  | cons h hs ih =>
    have hh := hall h (by simp)
    have ihh := ih (fun x hx => hall x (by simp [hx]))
    obtain ⟨s, hs2⟩ := Option.isSome_iff_exists.mp hh
    cases s with
    | live =>
      have f1 : hasStat m DirStatus.live h = true := by simp [hasStat, hs2]
      have f2 : hasStat m DirStatus.replaced h = false := by simp [hasStat, hs2]
      have f3 : hasStat m DirStatus.suppressed h = false := by simp [hasStat, hs2]
      have g1 : (h :: hs).filter (hasStat m DirStatus.live) =
          h :: hs.filter (hasStat m DirStatus.live) := by simp [List.filter_cons, f1]
      have g2 : (h :: hs).filter (hasStat m DirStatus.replaced) =
          hs.filter (hasStat m DirStatus.replaced) := by simp [List.filter_cons, f2]
      have g3 : (h :: hs).filter (hasStat m DirStatus.suppressed) =
          hs.filter (hasStat m DirStatus.suppressed) := by simp [List.filter_cons, f3]
      rw [hcons, ihh, g1, g2, g3, hcons]
      simp only [add_comm, add_left_comm, add_assoc]
    | replaced =>
      have f1 : hasStat m DirStatus.live h = false := by simp [hasStat, hs2]
      have f2 : hasStat m DirStatus.replaced h = true := by simp [hasStat, hs2]
      have f3 : hasStat m DirStatus.suppressed h = false := by simp [hasStat, hs2]
      have g1 : (h :: hs).filter (hasStat m DirStatus.live) =
          hs.filter (hasStat m DirStatus.live) := by simp [List.filter_cons, f1]
      have g2 : (h :: hs).filter (hasStat m DirStatus.replaced) =
          h :: hs.filter (hasStat m DirStatus.replaced) := by simp [List.filter_cons, f2]
      have g3 : (h :: hs).filter (hasStat m DirStatus.suppressed) =
          hs.filter (hasStat m DirStatus.suppressed) := by simp [List.filter_cons, f3]
      rw [hcons, ihh, g1, g2, g3, hcons]
      simp only [add_comm, add_left_comm, add_assoc]
    | suppressed =>
      have f1 : hasStat m DirStatus.live h = false := by simp [hasStat, hs2]
      have f2 : hasStat m DirStatus.replaced h = false := by simp [hasStat, hs2]
      have f3 : hasStat m DirStatus.suppressed h = true := by simp [hasStat, hs2]
      have g1 : (h :: hs).filter (hasStat m DirStatus.live) =
          hs.filter (hasStat m DirStatus.live) := by simp [List.filter_cons, f1]
      have g2 : (h :: hs).filter (hasStat m DirStatus.replaced) =
          hs.filter (hasStat m DirStatus.replaced) := by simp [List.filter_cons, f2]
      have g3 : (h :: hs).filter (hasStat m DirStatus.suppressed) =
          h :: hs.filter (hasStat m DirStatus.suppressed) := by simp [List.filter_cons, f3]
      rw [hcons, ihh, g1, g2, g3, hcons]
      simp only [add_comm, add_left_comm, add_assoc]

/-- A successful classification pass implies every processed hit with a
gi identifier has a defined directory status. -/
theorem classifyOld_ok_isSome (m : List (Nat × DirRecord)) (hs : List Hit) :
    ∀ (oo : OldOnly) (w : Writes) (oo2 : OldOnly) (w2 : Writes),
    classifyOld m hs oo w = .ok (oo2, w2) →
    ∀ x ∈ hs, giNum x ≠ none → (dirStat m x).isSome := by
  induction hs with
  | nil => intro oo w oo2 w2 _ x hx; simp at hx
  | cons h hs ih =>
    intro oo w oo2 w2 hok x hx hgne
    simp only [classifyOld] at hok
    cases hgi : giNum h with
    | none =>
      simp only [hgi] at hok
      rcases List.mem_cons.mp hx with rfl | hx2
      · exact absurd hgi hgne
      · exact ih _ _ _ _ hok x hx2 hgne
    | some n =>
      simp only [hgi] at hok
      cases hlk : idlookup n m with
      | none => simp only [hlk] at hok; exact absurd hok (by simp)
      | some r =>
        simp only [hlk] at hok
        rcases List.mem_cons.mp hx with rfl | hx2
        · simp [dirStat, hgi, hlk]
        · exact ih _ _ _ _ hok x hx2 hgne


/-- C2: for an unmatched old record with directory status replaced, when
no record of the new side's unknown bucket both carries the declared
replacement identifier and is judged attribute-equivalent (the
identifier is absent, or every carrier fails equivalence), the engine
neither errors nor drops the record: it appends it to the old side's
lost bucket and writes status live (main.py lines 117-121). -/
theorem c2_stale_replacement (m : List (Nat × DirRecord)) (ls : LinkState)
    (hit : Hit) (nid : Nat)
    (h1 : replacedByOf m hit = .ok nid)
    (h2 : ∀ h2 ∈ ls.newUnknown,
      ((h2.ids.any (fun i => i.num == nid)) && compare_hit hit h2) = false) :
    linkStep m ls hit = .ok ⟨ls.newUnknown, ls.newRepl, ls.oldRepl,
      ls.lost ++ [hit], ls.writes ++ [(hit.hid, "live")]⟩ := by
  simp only [linkStep, h1, findConfirm_none nid hit ls.newUnknown h2]

/-- Witness for C2 at a concrete input: the declared replacement 99 is
carried by a candidate whose attributes differ, so the old record is
reclassified live. -/
theorem c2_stale_replacement_witness :
    replacedByOf wm2 whitB = .ok 99 ∧
    (∀ h2 ∈ wls2.newUnknown,
      ((h2.ids.any (fun i => i.num == 99)) && compare_hit whitB h2) = false) ∧
    linkStep wm2 wls2 whitB = .ok ⟨wls2.newUnknown, wls2.newRepl, wls2.oldRepl,
      wls2.lost ++ [whitB], wls2.writes ++ [(whitB.hid, "live")]⟩ :=
  ⟨by decide, by decide,
   c2_stale_replacement wm2 wls2 whitB 99 (by decide) (by decide)⟩

/-- C3: for an unmatched old record with directory status replaced,
when some record of the new side's unknown bucket carries the declared
replacement identifier and is judged attribute-equivalent, the first
such candidate is removed from the unknown bucket, moved to the new
side's replacement bucket with status write replacement, the old record
is appended to the old side's replacement bucket, and the consumed
candidate is no longer present in the remaining unknown bucket
(main.py lines 106-116). -/
theorem c3_replacement_link (m : List (Nat × DirRecord)) (ls : LinkState)
    (hit : Hit) (nid : Nat)
    (h1 : replacedByOf m hit = .ok nid)
    (h2 : ∃ h2 ∈ ls.newUnknown,
      ((h2.ids.any (fun i => i.num == nid)) && compare_hit hit h2) = true) :
    ∃ rep rest, findConfirm nid hit ls.newUnknown = some (rep, rest) ∧
      rep ∈ ls.newUnknown ∧
      ((rep.ids.any (fun i => i.num == nid)) && compare_hit hit rep) = true ∧
      ls.newUnknown.Perm (rep :: rest) ∧
      linkStep m ls hit = .ok ⟨rest, ls.newRepl ++ [rep], ls.oldRepl ++ [hit],
        ls.lost, ls.writes ++ [(rep.hid, "replacement")]⟩ ∧
      ((ls.newUnknown.map Hit.hid).Nodup → rep.hid ∉ rest.map Hit.hid) := by
  have hsome := findConfirm_isSome nid hit ls.newUnknown h2
  cases hfc : findConfirm nid hit ls.newUnknown with
  | none => rw [hfc] at hsome; simp at hsome
  | some p =>
    obtain ⟨rep, rest⟩ := p
    obtain ⟨hmem, hpred, hperm⟩ := findConfirm_some nid hit ls.newUnknown rep rest hfc
    refine ⟨rep, rest, rfl, hmem, hpred, hperm, ?_, ?_⟩
    · simp only [linkStep, h1, hfc]
    · intro hnd
      have hnd2 : ((rep :: rest).map Hit.hid).Nodup :=
        ((hperm.map Hit.hid).nodup_iff).mp hnd
      rw [List.map_cons, List.nodup_cons] at hnd2
      exact hnd2.1

/-- Witness for C3 at a concrete input: among two carriers of the
declared replacement 99, the first fails equivalence and the second is
confirmed, popped and reclassified replacement. -/
theorem c3_replacement_link_witness :
    replacedByOf wm2 whitB = .ok 99 ∧
    (∃ h2 ∈ wls3.newUnknown,
      ((h2.ids.any (fun i => i.num == 99)) && compare_hit whitB h2) = true) ∧
    (∃ rep rest, findConfirm 99 whitB wls3.newUnknown = some (rep, rest) ∧
      rep ∈ wls3.newUnknown ∧
      ((rep.ids.any (fun i => i.num == 99)) && compare_hit whitB rep) = true ∧
      wls3.newUnknown.Perm (rep :: rest) ∧
      linkStep wm2 wls3 whitB = .ok ⟨rest, wls3.newRepl ++ [rep],
        wls3.oldRepl ++ [whitB], wls3.lost,
        wls3.writes ++ [(rep.hid, "replacement")]⟩ ∧
      ((wls3.newUnknown.map Hit.hid).Nodup → rep.hid ∉ rest.map Hit.hid)) :=
  ⟨by decide, by decide,
   c3_replacement_link wm2 wls3 whitB 99 (by decide) (by decide)⟩

/-- C4: in a completed run, the baseline is the maximum creation date
among the directory records resolved for the old side, the new side's
old (strange) bucket holds exactly the remaining unknown hits whose
creation date is strictly earlier than the baseline, the new bucket
holds exactly the others, and a date equal to or later than the
baseline classifies as new (main.py lines 130-145). -/
theorem c4_recency_boundary (oldP newP : Partition) (dir : Nat → DirRecord)
    (st : CompareResult)
    (hok : CompareBLASTs.compare oldP newP dir = .ok st) :
    (st.baseline ∈ st.oldGeneIDs.map (fun p => p.2.createDate) ∧
      ∀ d ∈ st.oldGeneIDs.map (fun p => p.2.createDate), d ≤ st.baseline) ∧
    st.new_old = st.new_unknown.filter (recPred st.newGeneIDs st.baseline) ∧
    st.new_new = st.new_unknown.filter
      (fun h => !recPred st.newGeneIDs st.baseline h) ∧
    ∀ h ∈ st.new_unknown, ∃ d, newDateO st.newGeneIDs h = some d ∧
      (d < st.baseline → h ∈ st.new_old) ∧
      (st.baseline ≤ d → h ∈ st.new_new) := by
  obtain ⟨oo, w1, ls, rs, b, hc, hl, hb, hr, hst⟩ := compare_ok_elim hok
  subst hst
  obtain ⟨r1, r2, r3, r4⟩ := recencyAll_ok _ b ls.newUnknown _ _ hr
  dsimp only at r1 r2 r3 ⊢
  refine ⟨baselineOf_ok _ b hb, ?_, ?_, ?_⟩
  · rw [r2]; simp
  · rw [r1]; simp
  · intro h hmem
    obtain ⟨d, hd⟩ := Option.isSome_iff_exists.mp (r4 h hmem)
    refine ⟨d, hd, ?_, ?_⟩
    · intro hlt
      rw [r2]
      simp only [List.nil_append]
      exact List.mem_filter.mpr ⟨hmem, by simp [recPred, hd, hlt]⟩
    · intro hge
      rw [r1]
      simp only [List.nil_append]
      refine List.mem_filter.mpr ⟨hmem, ?_⟩
      simp only [recPred, hd]
      simp only [decide_eq_true_eq, Bool.not_eq_eq_eq_not, Bool.not_true,
        decide_eq_false_iff_not]
      omega

/-- Witness for C4: a concrete completed run in which one new unmatched
record dated after the baseline classifies new and one dated before it
classifies strange. -/
theorem c4_recency_boundary_witness :
    CompareBLASTs.compare c4old c4new c4dir = .ok c4res ∧
    ((c4res.baseline ∈ c4res.oldGeneIDs.map (fun p => p.2.createDate) ∧
      ∀ d ∈ c4res.oldGeneIDs.map (fun p => p.2.createDate), d ≤ c4res.baseline) ∧
    c4res.new_old = c4res.new_unknown.filter
      (recPred c4res.newGeneIDs c4res.baseline) ∧
    c4res.new_new = c4res.new_unknown.filter
      (fun h => !recPred c4res.newGeneIDs c4res.baseline h) ∧
    ∀ h ∈ c4res.new_unknown, ∃ d, newDateO c4res.newGeneIDs h = some d ∧
      (d < c4res.baseline → h ∈ c4res.new_old) ∧
      (c4res.baseline ≤ d → h ∈ c4res.new_new)) :=
  ⟨by decide, c4_recency_boundary c4old c4new c4dir c4res (by decide)⟩

/-- C5 amended: in a completed run the first resolver invocation covers
the old side's whole all bucket (not only its unmatched records), the
second covers the new side's unknown bucket as it stands after
replacement linking, and the baseline is computed from the first
invocation's mapping (main.py lines 78, 125, 130). -/
theorem c5_resolver_amended (oldP newP : Partition) (dir : Nat → DirRecord)
    (st : CompareResult)
    (hok : CompareBLASTs.compare oldP newP dir = .ok st) :
    st.oldGeneIDs = get_idlist oldP.all dir ∧
    st.newGeneIDs = get_idlist st.new_unknown dir ∧
    baselineOf st.oldGeneIDs = .ok st.baseline := by
  obtain ⟨oo, w1, ls, rs, b, hc, hl, hb, hr, hst⟩ := compare_ok_elim hok
  subst hst
  exact ⟨rfl, rfl, hb⟩

/-- Counterexample to C5 as stated: in a completed concrete run the
first resolver invocation does not cover the old side's unmatched
records (which are empty here) but the whole all bucket. -/
theorem c5_counterexample :
    (CompareBLASTs.compare c5old c5new cdir).map
      (fun st => decide (st.oldGeneIDs = get_idlist c5old.unknown cdir)) =
        Except.ok false ∧
    (CompareBLASTs.compare c5old c5new cdir).map
      (fun st => decide (st.oldGeneIDs = get_idlist c5old.all cdir)) =
        Except.ok true :=
  ⟨by decide, by decide⟩

/-- Witness for the amended C5 on a concrete completed run. -/
theorem c5_resolver_amended_witness :
    CompareBLASTs.compare c4old c4new c4dir = .ok c4res ∧
    (c4res.oldGeneIDs = get_idlist c4old.all c4dir ∧
     c4res.newGeneIDs = get_idlist c4res.new_unknown c4dir ∧
     baselineOf c4res.oldGeneIDs = .ok c4res.baseline) :=
  ⟨by decide, c5_resolver_amended c4old c4new c4dir c4res (by decide)⟩

/-- C9: when the two inputs do not share the same set of query names,
the run fails with the assertion error before any per-query comparison
or output is produced (main.py line 310). -/
theorem c9_query_sets (oldAllHits newAllHits : List Hit)
    (matcher : List Hit → List Hit → Partition × Partition)
    (dir : Nat → DirRecord) (top : Nat)
    (hne : (groupNames oldAllHits).toFinset ≠ (groupNames newAllHits).toFinset) :
    perform_comparison oldAllHits newAllHits matcher dir top =
      .error "AssertionError: query name sets differ" := by
  unfold perform_comparison
  rw [if_neg hne]

/-- Witness for C9 at a concrete input with queries named q1 and q2. -/
theorem c9_query_sets_witness :
    (groupNames c9oldHits).toFinset ≠ (groupNames c9newHits).toFinset ∧
    perform_comparison c9oldHits c9newHits cmatcher cdir 0 =
      .error "AssertionError: query name sets differ" :=
  ⟨by decide, c9_query_sets c9oldHits c9newHits cmatcher cdir 0 (by decide)⟩

/-- C10: when the resolved mapping of the old side is empty (no old
record carries a gi identifier), compare fails at the baseline
computation with the empty-max error; consequently every successful
run has a non-empty old-side resolution mapping (main.py lines 130-131). -/
theorem c10_empty_baseline (oldP newP : Partition) (dir : Nat → DirRecord)
    (hsub : ∀ h ∈ oldP.unknown, h ∈ oldP.all) :
    (get_idlist oldP.all dir = [] →
      CompareBLASTs.compare oldP newP dir =
        .error "ValueError: max() arg is an empty sequence") ∧
    (∀ st, CompareBLASTs.compare oldP newP dir = .ok st →
      get_idlist oldP.all dir ≠ []) := by
  have part1 : get_idlist oldP.all dir = [] →
      CompareBLASTs.compare oldP newP dir =
        .error "ValueError: max() arg is an empty sequence" := by
    intro hempty
    have hall : ∀ h ∈ oldP.all, giNum h = none :=
      (get_idlist_eq_nil_iff _ _).mp hempty
    have hunk : ∀ h ∈ oldP.unknown, giNum h = none := fun h hh => hall h (hsub h hh)
    simp only [CompareBLASTs.compare]
    rw [classifyOld_skip _ _ _ _ hunk]
    simp only [linkAll, hempty, baselineOf, List.map_nil]
  refine ⟨part1, ?_⟩
  intro st hok hempty
  have h1 := part1 hempty
  rw [h1] at hok
  exact absurd hok (by simp)

/-- Witness for C10: a concrete old side with a single record lacking a
gi identifier makes the run fail at the baseline computation. -/
theorem c10_empty_baseline_witness :
    (∀ h ∈ c10old.unknown, h ∈ c10old.all) ∧
    get_idlist c10old.all cdir = [] ∧
    CompareBLASTs.compare c10old c10new cdir =
      .error "ValueError: max() arg is an empty sequence" :=
  ⟨by decide, by decide,
   (c10_empty_baseline c10old c10new cdir (by decide)).1 (by decide)⟩

/-- C6: the category tally reflects exactly the first prefix of each
side's all bucket — the whole bucket when top is zero, the first
min(top, length) hits otherwise — counting every considered old-side
hit under its status and considering new-side hits only for the
statuses new and strange (main.py lines 164-179). -/
theorem c6_topn_tally (oldAll newAll : List Hit) (stf : Nat → Option String)
    (top : Nat) (t : Tally)
    (hok : output_tally oldAll newAll stf top = .ok t) :
    t.equal = countStat (oldAll.take (if top = 0 then oldAll.length
      else min top oldAll.length)) stf "equal" ∧
    t.similar = countStat (oldAll.take (if top = 0 then oldAll.length
      else min top oldAll.length)) stf "similar" ∧
    t.live = countStat (oldAll.take (if top = 0 then oldAll.length
      else min top oldAll.length)) stf "live" ∧
    t.replaced = countStat (oldAll.take (if top = 0 then oldAll.length
      else min top oldAll.length)) stf "replaced" ∧
    t.suppressed = countStat (oldAll.take (if top = 0 then oldAll.length
      else min top oldAll.length)) stf "suppressed" ∧
    t.new = countStat (oldAll.take (if top = 0 then oldAll.length
      else min top oldAll.length)) stf "new" +
      countStat (newAll.take (if top = 0 then newAll.length
        else min top newAll.length)) stf "new" ∧
    t.strange = countStat (oldAll.take (if top = 0 then oldAll.length
      else min top oldAll.length)) stf "strange" +
      countStat (newAll.take (if top = 0 then newAll.length
        else min top newAll.length)) stf "strange" := by
  unfold output_tally at hok
  cases hto : tallyOld stf (oldAll.take (topCount top oldAll.length)) Tally.initial with
  | error e => simp only [hto] at hok; exact absurd hok (by simp)
  | ok t1 =>
    simp only [hto, Except.ok.injEq] at hok
    obtain ⟨e1, e2, e3, e4, e5, e6, e7⟩ := tallyOld_ok stf _ _ _ hto
    obtain ⟨f1, f2, f3, f4, f5, f6, f7⟩ :=
      tallyNew_spec stf (newAll.take (topCount top newAll.length)) t1
    subst hok
    simp only [Tally.initial] at e1 e2 e3 e4 e5 e6 e7
    simp only [topCount] at e1 e2 e3 e4 e5 e6 e7 f1 f2 f3 f4 f5 f6 f7 ⊢
    refine ⟨?_, ?_, ?_, ?_, ?_, ?_, ?_⟩ <;>
      simp only [f1, f2, f3, f4, f5, f6, f7, e1, e2, e3, e4, e5, e6, e7] <;>
        omega

/-- Witness for C6: a concrete tally over three old and two new hits
with top 2 counts exactly the prefixes. -/
theorem c6_topn_tally_witness :
    output_tally c6oldAll c6newAll c6stf 2 = .ok ⟨1, 0, 1, 0, 0, 1, 1⟩ ∧
    ((⟨1, 0, 1, 0, 0, 1, 1⟩ : Tally).equal =
      countStat (c6oldAll.take (if 2 = 0 then c6oldAll.length
        else min 2 c6oldAll.length)) c6stf "equal" ∧
    (⟨1, 0, 1, 0, 0, 1, 1⟩ : Tally).similar =
      countStat (c6oldAll.take (if 2 = 0 then c6oldAll.length
        else min 2 c6oldAll.length)) c6stf "similar" ∧
    (⟨1, 0, 1, 0, 0, 1, 1⟩ : Tally).live =
      countStat (c6oldAll.take (if 2 = 0 then c6oldAll.length
        else min 2 c6oldAll.length)) c6stf "live" ∧
    (⟨1, 0, 1, 0, 0, 1, 1⟩ : Tally).replaced =
      countStat (c6oldAll.take (if 2 = 0 then c6oldAll.length
        else min 2 c6oldAll.length)) c6stf "replaced" ∧
    (⟨1, 0, 1, 0, 0, 1, 1⟩ : Tally).suppressed =
      countStat (c6oldAll.take (if 2 = 0 then c6oldAll.length
        else min 2 c6oldAll.length)) c6stf "suppressed" ∧
    (⟨1, 0, 1, 0, 0, 1, 1⟩ : Tally).new =
      countStat (c6oldAll.take (if 2 = 0 then c6oldAll.length
        else min 2 c6oldAll.length)) c6stf "new" +
      countStat (c6newAll.take (if 2 = 0 then c6newAll.length
        else min 2 c6newAll.length)) c6stf "new" ∧
    (⟨1, 0, 1, 0, 0, 1, 1⟩ : Tally).strange =
      countStat (c6oldAll.take (if 2 = 0 then c6oldAll.length
        else min 2 c6oldAll.length)) c6stf "strange" +
      countStat (c6newAll.take (if 2 = 0 then c6newAll.length
        else min 2 c6newAll.length)) c6stf "strange") :=
  ⟨by decide, c6_topn_tally c6oldAll c6newAll c6stf 2 ⟨1, 0, 1, 0, 0, 1, 1⟩ (by decide)⟩

/-- C1 amended: in a completed run whose matcher partitions are genuine
(all is a permutation of same, similar and unknown) and in which every
old unmatched record carries a gi identifier, each side's all bucket is
a permutation of its terminal buckets, so the sizes add up and, when
record identities are distinct, no record sits in two terminal buckets.
Records lacking a gi identifier are excluded by the hypothesis because
main.py lines 88-92 silently skip them, leaving them in no terminal
bucket. -/
theorem c1_partition_amended (oldP newP : Partition) (dir : Nat → DirRecord)
    (st : CompareResult)
    (hok : CompareBLASTs.compare oldP newP dir = .ok st)
    (hOldMatch : oldP.all.Perm (oldP.same ++ oldP.similar ++ oldP.unknown))
    (hNewMatch : newP.all.Perm (newP.same ++ newP.similar ++ newP.unknown))
    (hgi : ∀ h ∈ oldP.unknown, giNum h ≠ none) :
    oldP.all.Perm (st.old_same ++ st.old_similar ++ st.old_lost ++
      st.old_replacement ++ st.old_suppressed) ∧
    newP.all.Perm (st.new_same ++ st.new_similar ++ st.new_replacement ++
      st.new_new ++ st.new_old) ∧
    oldP.all.length = st.old_same.length + st.old_similar.length +
      st.old_lost.length + st.old_replacement.length + st.old_suppressed.length ∧
    newP.all.length = st.new_same.length + st.new_similar.length +
      st.new_replacement.length + st.new_new.length + st.new_old.length ∧
    ((oldP.all.map Hit.hid).Nodup →
      ((st.old_same ++ st.old_similar ++ st.old_lost ++ st.old_replacement ++
        st.old_suppressed).map Hit.hid).Nodup) ∧
    ((newP.all.map Hit.hid).Nodup →
      ((st.new_same ++ st.new_similar ++ st.new_replacement ++ st.new_new ++
        st.new_old).map Hit.hid).Nodup) := by
  obtain ⟨oo, w1, ls, rs, b, hc, hl, hb, hr, hst⟩ := compare_ok_elim hok
  subst hst
  dsimp only
  obtain ⟨e1, e2, e3, _⟩ := classifyOld_ok _ oldP.unknown _ _ _ _ hc
  simp only [List.nil_append] at e1 e2 e3
  have hallS : ∀ h ∈ oldP.unknown, (dirStat (get_idlist oldP.all dir) h).isSome :=
    fun h hh => classifyOld_ok_isSome _ _ _ _ _ _ hc h hh (hgi h hh)
  have hpart : (oldP.unknown : Multiset Hit) =
      (oo.live : Multiset Hit) + (oo.replaced : Multiset Hit) +
      (oo.suppressed : Multiset Hit) := by
    rw [e1, e2, e3]
    exact filter_three_perm _ _ hallS
  obtain ⟨cons1, cons2⟩ := linkAll_ok_conserve _ oo.replaced _ ls hl
  dsimp only at cons1 cons2
  obtain ⟨r1, r2, _, _⟩ := recencyAll_ok _ b ls.newUnknown _ _ hr
  dsimp only at r1 r2
  simp only [List.nil_append] at r1 r2
  have hrec : (rs.newL : Multiset Hit) + (rs.oldL : Multiset Hit) =
      (ls.newUnknown : Multiset Hit) := by
    rw [r1, r2, Multiset.coe_add, Multiset.coe_eq_coe]
    exact (List.perm_append_comm).trans (List.filter_append_perm _ _)
  have hOldM : (oldP.all : Multiset Hit) =
      (oldP.same : Multiset Hit) + (oldP.similar : Multiset Hit) +
      (ls.lost : Multiset Hit) + (ls.oldRepl : Multiset Hit) +
      (oo.suppressed : Multiset Hit) := by
    rw [Multiset.coe_eq_coe.mpr hOldMatch, ← Multiset.coe_add, ← Multiset.coe_add,
        hpart]
    have hc2 : (ls.lost : Multiset Hit) + (ls.oldRepl : Multiset Hit) =
        (oo.live : Multiset Hit) + (oo.replaced : Multiset Hit) := by
      rw [cons2]; simp
    rw [← add_assoc, ← add_assoc] at *
    rw [show (oldP.same : Multiset Hit) + (oldP.similar : Multiset Hit) +
      (ls.lost : Multiset Hit) + (ls.oldRepl : Multiset Hit) +
      (oo.suppressed : Multiset Hit) =
      (oldP.same : Multiset Hit) + (oldP.similar : Multiset Hit) +
      ((ls.lost : Multiset Hit) + (ls.oldRepl : Multiset Hit)) +
      (oo.suppressed : Multiset Hit) from by
        simp only [add_comm, add_left_comm, add_assoc]]
    rw [hc2]
    simp only [add_comm, add_left_comm, add_assoc]
  have hNewM : (newP.all : Multiset Hit) =
      (newP.same : Multiset Hit) + (newP.similar : Multiset Hit) +
      (ls.newRepl : Multiset Hit) + (rs.newL : Multiset Hit) +
      (rs.oldL : Multiset Hit) := by
    rw [Multiset.coe_eq_coe.mpr hNewMatch, ← Multiset.coe_add, ← Multiset.coe_add]
    have hc1 : (ls.newUnknown : Multiset Hit) + (ls.newRepl : Multiset Hit) =
        (newP.unknown : Multiset Hit) := by
      rw [cons1]; simp
    rw [← hc1, ← hrec]
    simp only [add_comm, add_left_comm, add_assoc]
  have hpermOld : oldP.all.Perm (oldP.same ++ oldP.similar ++ ls.lost ++
      ls.oldRepl ++ oo.suppressed) := by
    rw [← Multiset.coe_eq_coe, ← Multiset.coe_add, ← Multiset.coe_add,
        ← Multiset.coe_add, ← Multiset.coe_add]
    exact hOldM
  have hpermNew : newP.all.Perm (newP.same ++ newP.similar ++ ls.newRepl ++
      rs.newL ++ rs.oldL) := by
    rw [← Multiset.coe_eq_coe, ← Multiset.coe_add, ← Multiset.coe_add,
        ← Multiset.coe_add, ← Multiset.coe_add]
    exact hNewM
  refine ⟨hpermOld, hpermNew, ?_, ?_, ?_, ?_⟩
  · have := hpermOld.length_eq
    simp only [List.length_append] at this
    omega
  · have := hpermNew.length_eq
    simp only [List.length_append] at this
    omega
  · intro hnd
    exact ((hpermOld.map Hit.hid).nodup_iff).mp hnd
  · intro hnd
    exact ((hpermNew.map Hit.hid).nodup_iff).mp hnd

/-- Counterexample to C1 as stated: a completed run on genuine matcher
partitions in which the record lacking a gi identifier ends in no
terminal bucket, so the old side's terminal buckets sum to 1 while its
all bucket holds 2 records. -/
theorem c1_counterexample :
    c1old.all.Perm (c1old.same ++ c1old.similar ++ c1old.unknown) ∧
    c1new.all.Perm (c1new.same ++ c1new.similar ++ c1new.unknown) ∧
    (CompareBLASTs.compare c1old c1new cdir).map
      (fun st => decide (c1old.all.Perm (st.old_same ++ st.old_similar ++
        st.old_lost ++ st.old_replacement ++ st.old_suppressed))) =
      Except.ok false ∧
    (CompareBLASTs.compare c1old c1new cdir).map
      (fun st => st.old_same.length + st.old_similar.length + st.old_lost.length +
        st.old_replacement.length + st.old_suppressed.length) = Except.ok 1 ∧
    c1old.all.length = 2 :=
  ⟨by decide, by decide, by decide, by decide, by decide⟩

/-- Witness for the amended C1: a concrete completed run covering the
lost, replacement-failure and new classifications, in which both sides
partition exactly. -/
theorem c1_partition_witness :
    CompareBLASTs.compare w1old w1new w1dir = .ok w1res ∧
    w1old.all.Perm (w1old.same ++ w1old.similar ++ w1old.unknown) ∧
    w1new.all.Perm (w1new.same ++ w1new.similar ++ w1new.unknown) ∧
    (∀ h ∈ w1old.unknown, giNum h ≠ none) ∧
    w1old.all.Perm (w1res.old_same ++ w1res.old_similar ++ w1res.old_lost ++
      w1res.old_replacement ++ w1res.old_suppressed) ∧
    w1new.all.Perm (w1res.new_same ++ w1res.new_similar ++ w1res.new_replacement ++
      w1res.new_new ++ w1res.new_old) :=
  ⟨by decide, by decide, by decide, by decide,
   (c1_partition_amended w1old w1new w1dir w1res (by decide) (by decide)
     (by decide) (by decide)).1,
   (c1_partition_amended w1old w1new w1dir w1res (by decide) (by decide)
     (by decide) (by decide)).2.1⟩

/-- A classification write exists only for hits carrying a gi
identifier. -/
theorem classWrite_gi (m : List (Nat × DirRecord)) (h : Hit)
    (p : Nat × String) (hp : classWrite m h = some p) : giNum h ≠ none := by
  intro hgi
  rw [classWrite, hgi] at hp
  exact absurd hp (by simp)

/-- Counterexample to C7 as stated: a new-side unmatched record lacking
a gi identifier makes the run abort with a lookup error (main.py line
139 indexes the resolver mapping with the record's first identifier),
instead of being skipped and surfaced. -/
theorem c7_counterexample :
    giNum fixNoGi2 = none ∧ fixNoGi2 ∈ c7new.unknown ∧
    CompareBLASTs.compare c7old c7new cdir = .error "KeyError: CreateDate" :=
  ⟨by decide, by decide, by decide⟩

/-- C7 amended: an old-side unmatched record lacking a gi identifier is
skipped silently (main.py lines 88-92): the run can still complete, but
the record's status field is never assigned and the record appears in
no terminal old-side bucket — it is not surfaced to the caller; a
new-side unmatched record lacking a resolvable identifier instead
aborts the run (see the counterexample). -/
theorem c7_missing_gi_amended (oldP newP : Partition) (dir : Nat → DirRecord)
    (st : CompareResult)
    (hok : CompareBLASTs.compare oldP newP dir = .ok st)
    (h : Hit) (hmem : h ∈ oldP.unknown) (hgi : giNum h = none)
    (hnd : (oldP.unknown.map Hit.hid).Nodup)
    (hdisj : ∀ a ∈ oldP.unknown, ∀ b2 ∈ newP.unknown, a.hid ≠ b2.hid) :
    statusOf st.writes h.hid = none ∧
    h ∉ st.old_lost ∧ h ∉ st.old_replacement ∧ h ∉ st.old_suppressed := by
  obtain ⟨oo, w1, ls, rs, b, hc, hl, hb, hr, hst⟩ := compare_ok_elim hok
  subst hst
  dsimp only
  obtain ⟨e1, e2, e3, e4⟩ := classifyOld_ok _ oldP.unknown _ _ _ _ hc
  simp only [List.nil_append] at e1 e2 e3 e4
  have hstatnone : dirStat (get_idlist oldP.all dir) h = none := by
    simp [dirStat, hgi]
  have hnl : h ∉ oo.live := by
    rw [e1]
    intro hin
    have := (List.mem_filter.mp hin).2
    simp [hasStat, hstatnone] at this
  have hnr : h ∉ oo.replaced := by
    rw [e2]
    intro hin
    have := (List.mem_filter.mp hin).2
    simp [hasStat, hstatnone] at this
  have hns : h ∉ oo.suppressed := by
    rw [e3]
    intro hin
    have := (List.mem_filter.mp hin).2
    simp [hasStat, hstatnone] at this
  obtain ⟨mlost, mrep, munk⟩ := linkAll_ok_mem _ oo.replaced _ ls hl
  dsimp only at mlost mrep munk
  have hinj := List.inj_on_of_nodup_map hnd
  have hkeys : ∀ p ∈ rs.writes, p.1 ≠ h.hid := by
    obtain ⟨_, _, r3, _⟩ := recencyAll_ok _ b ls.newUnknown _ _ hr
    dsimp only at r3
    obtain ⟨dw, hdw, hdwp⟩ := linkAll_ok_writes _ oo.replaced _ ls hl
    dsimp only at hdw hdwp
    intro p hp hpk
    rw [r3, hdw] at hp
    rcases List.mem_append.mp hp with hp1 | hp2
    · rcases List.mem_append.mp hp1 with hpw | hpd
      · rw [e4] at hpw
        obtain ⟨x, hx, hcw⟩ := List.mem_filterMap.mp hpw
        have hx1 : p.1 = x.hid := classWrite_fst _ _ _ hcw
        have hxh : x = h := hinj hx hmem (by rw [← hx1, hpk])
        rw [hxh] at hcw
        exact classWrite_gi _ _ _ hcw hgi
      · rcases hdwp p hpd with ⟨_, hk⟩ | ⟨_, hk⟩
        · obtain ⟨y, hy, hye⟩ := List.mem_map.mp hk
          have hyu : y ∈ oldP.unknown := by
            rw [e2] at hy
            exact (List.mem_filter.mp hy).1
          have hyh : y = h := hinj hyu hmem (by rw [hye, hpk])
          rw [hyh] at hy
          exact hnr hy
        · obtain ⟨y, hy, hye⟩ := List.mem_map.mp hk
          exact hdisj h hmem y hy (by rw [hye, hpk])
    · obtain ⟨y, hy, hye⟩ := List.mem_map.mp hp2
      have hyn : y ∈ newP.unknown := by
        rcases munk y hy with hy2 | hy2
        · exact hy2
        · simp at hy2
      have : y.hid = p.1 := by rw [← hye]
      exact hdisj h hmem y hyn (by rw [this, hpk])
  refine ⟨statusOf_nil _ _ hkeys, ?_, ?_, hns⟩
  · intro hin
    rcases mlost h hin with h1 | h2 | h3
    · exact hnl h1
    · simp at h2
    · exact hnr h3
  · intro hin
    rcases mrep h hin with h1 | h2 | h3
    · exact hnl h1
    · simp at h2
    · exact hnr h3

/-- Witness for the amended C7: the completed run of the C1
counterexample leaves the gi-less old record unclassified, unflagged
and outside every terminal bucket. -/
theorem c7_missing_gi_witness :
    CompareBLASTs.compare c1old c1new cdir = .ok c1res ∧
    fixNoGi ∈ c1old.unknown ∧ giNum fixNoGi = none ∧
    (statusOf c1res.writes fixNoGi.hid = none ∧
     fixNoGi ∉ c1res.old_lost ∧ fixNoGi ∉ c1res.old_replacement ∧
     fixNoGi ∉ c1res.old_suppressed) :=
  ⟨by decide, by decide, by decide,
   c7_missing_gi_amended c1old c1new cdir c1res (by decide) fixNoGi (by decide)
     (by decide) (by decide) (by decide)⟩

/-- The value trace of a concatenation splits keywise. -/
theorem valuesAt_append_general (w d : Writes) (k : Nat) :
    valuesAt (w ++ d) k = valuesAt w k ++ valuesAt d k := by
  simp [valuesAt, List.filter_append]

/-- Appending one write preserves the status-assignment discipline when
the key is fresh, or when it overwrites a lone replaced with live. -/
theorem good_snoc (w : Writes) (k : Nat) (v : String)
    (hg : onceExceptReplacedLive w)
    (hk : valuesAt w k = [] ∨ (valuesAt w k = ["replaced"] ∧ v = "live")) :
    onceExceptReplacedLive (w ++ [(k, v)]) := by
  intro k2
  rw [valuesAt_append]
  by_cases hc : k2 = k
  · subst hc
    rcases hk with hz | ⟨hr, rfl⟩
    · rw [hz, if_pos rfl]
      exact ⟨by simp, by intro h2; simp at h2⟩
    · rw [hr, if_pos rfl]
      exact ⟨by simp, by intro _; simp⟩
  · rw [if_neg hc, List.append_nil]
    exact hg k2

/-- Appending writes with pairwise fresh, previously unwritten keys
preserves the status-assignment discipline. -/
theorem good_append_fresh (w d : Writes)
    (hg : onceExceptReplacedLive w)
    (hnd : (d.map Prod.fst).Nodup)
    (hz : ∀ p ∈ d, valuesAt w p.1 = []) :
    onceExceptReplacedLive (w ++ d) := by
  intro k
  rw [valuesAt_append_general]
  by_cases hk : ∃ p ∈ d, p.1 = k
  · obtain ⟨p, hp, hpk⟩ := hk
    have hzk : valuesAt w k = [] := by rw [← hpk]; exact hz p hp
    rw [hzk, List.nil_append]
    have hle := valuesAt_length_le_one d k hnd
    exact ⟨by omega, by intro h2; omega⟩
  · push_neg at hk
    rw [valuesAt_nil d k hk, List.append_nil]
    exact hg k

/-- A hit with a resolved directory status yields the corresponding
classification write. -/
theorem classWrite_of_dirStat (m : List (Nat × DirRecord)) (h : Hit)
    (s : DirStatus) (hds : dirStat m h = some s) :
    classWrite m h = some (h.hid, s.str) := by
  unfold dirStat at hds
  unfold classWrite
  cases hgi : giNum h with
  | none => simp only [hgi] at hds; exact absurd hds (by simp)
  | some n =>
    simp only [hgi] at hds
    cases hlk : idlookup n m with
    | none => simp only [hlk] at hds; exact absurd hds (by simp)
    | some r =>
      simp only [hlk, Option.map_some', Option.some.injEq] at hds
      simp only [hlk, hds]

/-- The replacement-linking loop preserves the status-assignment
discipline: pending replaced records carry exactly one prior replaced
write (which a linking failure extends to replaced-live), and popped
candidates receive their single replacement write. -/
theorem linkAll_good (m : List (Nat × DirRecord)) (pending : List Hit) :
    ∀ (ls ls2 : LinkState), linkAll m pending ls = .ok ls2 →
    (pending.map Hit.hid).Nodup →
    ((ls.newUnknown.map Hit.hid).Nodup) →
    (∀ h ∈ pending, valuesAt ls.writes h.hid = ["replaced"]) →
    (∀ h ∈ ls.newUnknown, valuesAt ls.writes h.hid = []) →
    (∀ a ∈ pending, ∀ b2 ∈ ls.newUnknown, a.hid ≠ b2.hid) →
    onceExceptReplacedLive ls.writes →
    onceExceptReplacedLive ls2.writes ∧
    ((ls2.newUnknown.map Hit.hid).Nodup) ∧
    (∀ h ∈ ls2.newUnknown, valuesAt ls2.writes h.hid = []) := by
  induction pending with
  | nil =>
    intro ls ls2 hok _ hndN _ hzero _ hg
    simp only [linkAll, Except.ok.injEq] at hok
    subst hok
    exact ⟨hg, hndN, hzero⟩
  | cons hit hs ih =>
    intro ls ls2 hok hndP hndN hrep hzero hdisj hg
    simp only [linkAll] at hok
    cases hstep : linkStep m ls hit with
    | error e => simp only [hstep] at hok; exact absurd hok (by simp)
    | ok ls1 =>
      simp only [hstep] at hok
      rw [List.map_cons, List.nodup_cons] at hndP
      rcases linkStep_ok_cases m ls hit ls1 hstep with
        ⟨nid, rep, rest, _, hfc, rfl⟩ | ⟨nid, _, hfc, rfl⟩
      · obtain ⟨hmemR, _, hperm⟩ := findConfirm_some nid hit ls.newUnknown rep rest hfc
        have hndNU : ((rep :: rest).map Hit.hid).Nodup :=
          ((hperm.map Hit.hid).nodup_iff).mp hndN
        rw [List.map_cons, List.nodup_cons] at hndNU
        have hsubRest : ∀ x ∈ rest, x ∈ ls.newUnknown :=
          fun x hx => hperm.symm.subset (by simp [hx])
        apply ih _ _ hok hndP.2 hndNU.2
        · intro h2 hh2
          dsimp only
          rw [valuesAt_append]
          rw [if_neg (hdisj h2 (by simp [hh2]) rep hmemR)]
          simp [hrep h2 (by simp [hh2])]
        · intro h2 hh2
          dsimp only
          rw [valuesAt_append]
          have hne : h2.hid ≠ rep.hid := by
            intro he
            exact hndNU.1 (he ▸ List.mem_map_of_mem Hit.hid hh2)
          rw [if_neg hne]
          simp [hzero h2 (hsubRest h2 hh2)]
        · intro a ha b2 hb2
          exact hdisj a (by simp [ha]) b2 (hsubRest b2 hb2)
        · dsimp only
          exact good_snoc _ _ _ hg (Or.inl (hzero rep hmemR))
      · apply ih _ _ hok hndP.2 hndN
        · intro h2 hh2
          dsimp only
          rw [valuesAt_append]
          have hne : h2.hid ≠ hit.hid := by
            intro he
            exact hndP.1 (he ▸ List.mem_map_of_mem Hit.hid hh2)
          rw [if_neg hne]
          simp [hrep h2 (by simp [hh2])]
        · intro h2 hh2
          dsimp only
          rw [valuesAt_append]
          rw [if_neg (Ne.symm (hdisj hit (by simp) h2 hh2))]
          simp [hzero h2 hh2]
        · intro a ha b2 hb2
          exact hdisj a (by simp [ha]) b2 hb2
        · dsimp only
          exact good_snoc _ _ _ hg (Or.inr ⟨hrep hit (by simp), rfl⟩)

/-- Counterexample to C8 as stated: in a completed concrete run the
replaced old record's status is assigned twice with different values,
first replaced (main.py line 91) and then live (line 121). -/
theorem c8_counterexample :
    (CompareBLASTs.compare c8old c8new c8dir).map (fun st => valuesAt st.writes 1) =
      Except.ok ["replaced", "live"] := by decide

/-- C8 amended: in a completed run with distinct record identities,
every record's status field is assigned at most twice, and the only
possible double assignment is the overwrite of replaced by live that
happens when a declared replacement cannot be confirmed; every other
record's status is assigned at most once. -/
theorem c8_status_writes_amended (oldP newP : Partition) (dir : Nat → DirRecord)
    (st : CompareResult)
    (hok : CompareBLASTs.compare oldP newP dir = .ok st)
    (hndO : (oldP.unknown.map Hit.hid).Nodup)
    (hndN : (newP.unknown.map Hit.hid).Nodup)
    (hdisj : ∀ a ∈ oldP.unknown, ∀ b2 ∈ newP.unknown, a.hid ≠ b2.hid) :
    onceExceptReplacedLive st.writes := by
  obtain ⟨oo, w1, ls, rs, b, hc, hl, hb, hr, hst⟩ := compare_ok_elim hok
  subst hst
  dsimp only
  obtain ⟨e1, e2, e3, e4⟩ := classifyOld_ok _ oldP.unknown _ _ _ _ hc
  simp only [List.nil_append] at e1 e2 e3 e4
  have hkeysub :
      ((oldP.unknown.filterMap (classWrite (get_idlist oldP.all dir))).map
        Prod.fst).Sublist (oldP.unknown.map Hit.hid) :=
    classWrites_keys_sublist _ _
  have hw1nd : (w1.map Prod.fst).Nodup := by
    rw [e4]
    exact hndO.sublist hkeysub
  have hgood1 : onceExceptReplacedLive w1 := by
    intro k
    have := valuesAt_length_le_one w1 k hw1nd
    exact ⟨by omega, by intro h2; omega⟩
  have hpendRepl : ∀ h ∈ oo.replaced, valuesAt w1 h.hid = ["replaced"] := by
    intro h hh
    rw [e2] at hh
    have hu := (List.mem_filter.mp hh).1
    have hp := (List.mem_filter.mp hh).2
    have hds : dirStat (get_idlist oldP.all dir) h = some DirStatus.replaced := by
      simpa [hasStat] using hp
    have hcw := classWrite_of_dirStat _ _ _ hds
    have hmemw : (h.hid, "replaced") ∈ w1 := by
      rw [e4]
      exact List.mem_filterMap.mpr ⟨h, hu, by simpa [DirStatus.str] using hcw⟩
    exact eq_singleton_of_mem _ _ (mem_valuesAt _ _ _ hmemw)
      (valuesAt_length_le_one _ _ hw1nd)
  have hzeroNew : ∀ h ∈ newP.unknown, valuesAt w1 h.hid = [] := by
    intro h hh
    apply valuesAt_nil
    intro p hp hpk
    rw [e4] at hp
    obtain ⟨x, hx, hcw⟩ := List.mem_filterMap.mp hp
    have hfst := classWrite_fst _ _ _ hcw
    exact hdisj x hx h hh (by rw [← hfst, hpk])
  have hpendNodup : (oo.replaced.map Hit.hid).Nodup := by
    rw [e2]
    exact hndO.sublist ((List.filter_sublist _).map Hit.hid)
  have hpendDisj : ∀ a ∈ oo.replaced, ∀ b2 ∈ newP.unknown, a.hid ≠ b2.hid := by
    intro a ha b2 hb2
    rw [e2] at ha
    exact hdisj a (List.mem_filter.mp ha).1 b2 hb2
  obtain ⟨hgoodLS, hndRest, hzeroRest⟩ :=
    linkAll_good _ oo.replaced _ ls hl hpendNodup hndN hpendRepl hzeroNew
      hpendDisj hgood1
  obtain ⟨_, _, r3, _⟩ := recencyAll_ok _ b ls.newUnknown _ _ hr
  dsimp only at r3
  rw [r3]
  apply good_append_fresh _ _ hgoodLS
  · have hmm : (ls.newUnknown.map (fun h =>
        (h.hid, if recPred (get_idlist ls.newUnknown dir) b h then "strange"
          else "new"))).map Prod.fst = ls.newUnknown.map Hit.hid := by
      simp [List.map_map]
    rw [hmm]
    exact hndRest
  · intro p hp
    obtain ⟨x, hx, hxe⟩ := List.mem_map.mp hp
    have : p.1 = x.hid := by rw [← hxe]
    rw [this]
    exact hzeroRest x hx

/-- Witness for the amended C8 on the concrete C8 run, instantiated at
the doubly-written record identity 1. -/
theorem c8_status_writes_witness :
    CompareBLASTs.compare c8old c8new c8dir = .ok c8res ∧
    (c8old.unknown.map Hit.hid).Nodup ∧
    (c8new.unknown.map Hit.hid).Nodup ∧
    (∀ a ∈ c8old.unknown, ∀ b2 ∈ c8new.unknown, a.hid ≠ b2.hid) ∧
    ((valuesAt c8res.writes 1).length ≤ 2 ∧
      ((valuesAt c8res.writes 1).length = 2 →
        valuesAt c8res.writes 1 = ["replaced", "live"])) :=
  ⟨by decide, by decide, by decide, by decide,
   c8_status_writes_amended c8old c8new c8dir c8res (by decide) (by decide)
     (by decide) (by decide) 1⟩
